import Mathlib

/-!
# The cat-image server (package main): handlers over a directory store

A shallow embedding of `src/main.go`.  Every handler of the source is a function

    ResponseWriter → Request → FS → ResponseWriter × FS

that threads the response being written and the state of the directory `./images/`.

What is modelled of the world around the handlers:

* `FS` is the state of `./images/`: whether the directory exists, and a finite map from
  entry names to nodes, a node being a regular file with its bytes or a subdirectory.  The
  path `"./images/" + name` is resolved by `FS.find`, which refuses a name with a NUL byte
  or of more than 255 bytes, takes `""`, `"."`, `".."` and `"/"` as directories, and any
  other name without a separator as the entry of that name.  Beyond that an operation fails
  only for a reason the map shows (entry missing, entry is a directory, directory not
  empty): permissions, quotas and device errors are outside the model.  Enumeration order
  is the order of the association list and carries no meaning.
* Names reach the handlers as text, a Lean `String`, which is valid Unicode.  A directory
  may also hold entries whose name is not valid UTF-8 (`FS.stray`): no request of the model
  names them, and the listing shows them.
* `ResponseWriter` records what the handler sets and writes: the header map as it stands when
  the status line goes out, the status code, and the body bytes.  Headers the transport adds
  by itself (date, length, a sniffed content type) are not part of it.
* `Request` carries the header map, the route variables, and the outcome of reading the
  multipart form from the body together with the number of body bytes that reading takes.
  `readForm` gives that outcome for the parts a client sent: it is there that a file name
  is reduced to its base name, before a handler sees it.
* Requests are handled one at a time; output to the process log is dropped.
* Text is a Lean `String` (valid Unicode); bytes on the wire are its UTF-8 encoding.
-/

namespace CatServer

/-! ## Bytes and text -/

/-- UTF-8 bytes of a text, as `io.Writer.Write([]byte(s))` receives them. -/
def utf8 (s : String) : List UInt8 :=
  s.toList.flatMap String.utf8EncodeChar

/-! ## Constants of the source -/

/-- Source: `maxFileSize = 10 << 20`. -/
def maxFileSize : Nat := 10 <<< 20

/-- Source: `apiKey = "123456789"`. -/
def apiKey : String := "123456789"

/-! ## net/textproto and net/http headers -/

/-- Bytes allowed in a header field name (RFC 7230 token characters). -/
def validHeaderFieldByte (c : Char) : Bool :=
  c.isAlphanum || "!#$%&'*+-.^_`|~".toList.contains c

/-- The canonicalising pass: upper case at the start and after each dash, lower case elsewhere. -/
def canonicalLoop : Bool → List Char → List Char
  | _, [] => []
  | upper, c :: cs =>
    let c1 := if upper && c.isLower then c.toUpper
              else if !upper && c.isUpper then c.toLower else c
    c1 :: canonicalLoop (c1 == '-') cs

/-- Go `textproto.CanonicalMIMEHeaderKey`: a key holding a byte that is not a token character
is returned unchanged, any other key is canonicalised. -/
def CanonicalMIMEHeaderKey (s : String) : String :=
  if s.toList.all validHeaderFieldByte then String.mk (canonicalLoop true s.toList) else s

/-- Go `http.Header`, a `map[string][]string` keyed by canonical names. -/
abbrev Header := List (String × List String)

/-- Go `Header.Get`: the first value under the canonical form of `key`, or `""`. -/
def Header.Get (h : Header) (key : String) : String :=
  match List.lookup (CanonicalMIMEHeaderKey key) h with
  | some (v :: _) => v
  | _ => ""

/-- Go `Header.Set`: the canonical form of `key` now holds exactly `[value]`. -/
def Header.Set (h : Header) (key value : String) : Header :=
  (CanonicalMIMEHeaderKey key, [value]) ::
    List.filter (fun p => p.1 != CanonicalMIMEHeaderKey key) h

/-- Go `Header.Del`: the canonical form of `key` holds nothing any more. -/
def Header.Del (h : Header) (key : String) : Header :=
  List.filter (fun p => p.1 != CanonicalMIMEHeaderKey key) h

/-! ## http.ResponseWriter -/

/-- The response under construction.  `Code = none` until the status line is written. -/
structure ResponseWriter where
  /-- Header map of the response. -/
  Header : Header
  /-- Status code, once written. -/
  Code : Option Nat
  /-- Body bytes written so far. -/
  Body : List UInt8
  deriving DecidableEq, Repr

/-- `w.Header().Del(key)`: takes effect only before the status line is written. -/
def ResponseWriter.DelHeader (w : ResponseWriter) (key : String) : ResponseWriter :=
  match w.Code with
  | none => { w with Header := w.Header.Del key }
  | some _ => w

/-- `w.Header().Set(key, value)`: takes effect only before the status line is written. -/
def ResponseWriter.SetHeader (w : ResponseWriter) (key value : String) : ResponseWriter :=
  match w.Code with
  | none => { w with Header := w.Header.Set key value }
  | some _ => w

/-- `w.WriteHeader(code)`: the first call fixes the status, later calls are ignored. -/
def ResponseWriter.WriteHeader (w : ResponseWriter) (code : Nat) : ResponseWriter :=
  match w.Code with
  | none => { w with Code := some code }
  | some _ => w

/-- `w.Write(b)`: writes status 200 first when no status was written, then appends `b`. -/
def ResponseWriter.Write (w : ResponseWriter) (b : List UInt8) : ResponseWriter :=
  let w1 := w.WriteHeader 200
  { w1 with Body := w1.Body ++ b }

/-- Go `http.Error(w, error, code)`: deletes `Content-Length`, sets `Content-Type` and
`X-Content-Type-Options`, writes the status, then the text and a newline. -/
def httpError (w : ResponseWriter) (error : String) (code : Nat) : ResponseWriter :=
  let w0 := w.DelHeader "Content-Length"
  let w1 := w0.SetHeader "Content-Type" "text/plain; charset=utf-8"
  let w2 := w1.SetHeader "X-Content-Type-Options" "nosniff"
  let w3 := w2.WriteHeader code
  w3.Write (utf8 (error ++ "\n"))

/-! ## fmt: formatting with no operand left

The handlers print their confirmation with `fmt.Fprintf(w, fmt.Sprintf(format, name))`: the
text built by `Sprintf` is handed to `Fprintf` as a format string with no operands.  What
follows is `(*pp).doPrintf` of package fmt for an empty operand list. -/

/-- Go `fmt.Sprintf(before + "%v" + after, v)` for a string operand: `%v` prints it verbatim. -/
def Sprintf (before after v : String) : String :=
  before ++ v ++ after

/-- Go `tooLarge`: the bound on a width, precision or operand index. -/
def tooLarge (x : Nat) : Bool :=
  decide (1000000 < x)

/-- The digit loop of Go `parsenum`: number read, whether a digit was seen, and the unread
rest; on overflow nothing of the range is left. -/
def parsenumLoop : Nat → Bool → List Char → Nat × Bool × List Char
  | num, isnum, [] => (num, isnum, [])
  | num, isnum, c :: cs =>
    if '0' ≤ c ∧ c ≤ '9' then
      if tooLarge num then (0, false, [])
      else parsenumLoop (num * 10 + (c.toNat - '0'.toNat)) true cs
    else (num, isnum, c :: cs)

/-- Go `parsenum(s, start, end)` on the characters `s[start:end]`. -/
def parsenum (cs : List Char) : Nat × Bool × List Char :=
  parsenumLoop 0 false cs

/-- Go `parseArgNumber` on a format that starts with `[`: whether `[n]` was well formed, and
the format after it (after the bracket alone when there is no closing bracket). -/
def parseArgNumber (cs : List Char) : Bool × List Char :=
  if (String.mk cs).utf8ByteSize < 3 then (false, cs.tail)
  else
    match cs.tail.span (fun c => c != ']') with
    | (_, []) => (false, cs.tail)
    | (inner, _ :: after) =>
      match parsenum inner with
      | (_, true, []) => (true, after)
      | _ => (false, after)

/-- The variables of one pass of the loop of `doPrintf`: the text written by the pass, the
format not yet read, and the flags `afterIndex` and `p.goodArgNum`. -/
structure Scan where
  /-- Text the pass has written. -/
  out : List Char
  /-- Format from position `i` on. -/
  rest : List Char
  /-- The previous item was an index like `[3]`. -/
  afterIndex : Bool
  /-- No bad operand index was met. -/
  goodArgNum : Bool

/-- Go `(*pp).argNumber` with no operands.  Without a bracket nothing is found; with one,
every index is out of range, so `goodArgNum` is cleared and the bracket is skipped. -/
def argNumber (s : Scan) : Scan :=
  match s.rest with
  | '[' :: _ =>
    let r := parseArgNumber s.rest
    { s with rest := r.2, afterIndex := r.1, goodArgNum := false }
  | _ => { s with afterIndex := false }

/-- The flag loop of `doPrintf`: skips `#`, `0`, `+`, `-` and space. -/
def skipFlags : List Char → List Char
  | [] => []
  | c :: cs =>
    if c = '#' ∨ c = '0' ∨ c = '+' ∨ c = '-' ∨ c = ' ' then skipFlags cs else c :: cs

/-- The width of a directive: `*` finds no operand to take the width from, digits are read
and may not follow an index. -/
def width (s : Scan) : Scan :=
  match s.rest with
  | '*' :: rest => { s with out := s.out ++ "%!(BADWIDTH)".toList, rest := rest, afterIndex := false }
  | _ =>
    let n := parsenum s.rest
    { s with rest := n.2.2, goodArgNum := s.goodArgNum && !(s.afterIndex && n.2.1) }

/-- The precision of a directive: a `.` that is not the last character of the format
(source of fmt: `if i+1 < end && format[i] == '.'`) and what follows it. -/
def precision (s : Scan) : Scan :=
  match s.rest with
  | '.' :: c :: cs =>
    let rest := c :: cs
    let s1 := argNumber { s with rest := rest, goodArgNum := s.goodArgNum && !s.afterIndex }
    match s1.rest with
    | '*' :: rest2 =>
      { s1 with out := s1.out ++ "%!(BADPREC)".toList, rest := rest2, afterIndex := false }
    | _ => { s1 with rest := (parsenum s1.rest).2.2 }
  | _ => s

/-- Source of fmt: `if !afterIndex { argNum, i, afterIndex = p.argNumber(...) }`. -/
def lastIndex (s : Scan) : Scan :=
  if s.afterIndex then s else argNumber s

/-- The verb of a directive with no operand left: none at the end of the format, `%%`, a bad
index, or a missing operand.  Returns the text of the pass and the format left. -/
def verb (s : Scan) : List Char × List Char :=
  match s.rest with
  | [] => (s.out ++ "%!(NOVERB)".toList, [])
  | v :: rest =>
    if v = '%' then (s.out ++ ['%'], rest)
    else if !s.goodArgNum then (s.out ++ "%!".toList ++ [v] ++ "(BADINDEX)".toList, rest)
    else (s.out ++ "%!".toList ++ [v] ++ "(MISSING)".toList, rest)

/-- One pass of the loop of `doPrintf` after a `%`, with no operand: flags, index, width,
precision, index, verb. -/
def directive (cs : List Char) : List Char × List Char :=
  verb (lastIndex (precision (width (argNumber
    { out := [], rest := skipFlags cs, afterIndex := false, goodArgNum := true }))))

/-- The loop of `doPrintf` with no operand; `fuel` bounds the number of passes. -/
def doPrintfLoop : Nat → List Char → List Char
  | 0, _ => []
  | _ + 1, [] => []
  | fuel + 1, c :: cs =>
    if c = '%' then
      let r := directive cs
      r.1 ++ doPrintfLoop fuel r.2
    else c :: doPrintfLoop fuel cs

/-- Go `doPrintf(format, nil)`: every pass consumes a character, so the length of the format
is fuel enough (`doPrintfLoop_fuel`). -/
def doPrintf (format : String) : String :=
  String.mk (doPrintfLoop format.length format.toList)

/-- Go `fmt.Fprintf(w, format)` with no operand. -/
def Fprintf (w : ResponseWriter) (format : String) : ResponseWriter :=
  w.Write (utf8 (doPrintf format))

/-! ## Errors of the file system -/

/-- The reasons an operation on the directory fails. -/
inductive Errno where
  | ENOENT
  | EISDIR
  | ENOTEMPTY
  | ENAMETOOLONG
  | EINVAL
  deriving DecidableEq, Repr

/-- Text of an error number. -/
def Errno.Error : Errno → String
  | .ENOENT => "no such file or directory"
  | .EISDIR => "is a directory"
  | .ENOTEMPTY => "directory not empty"
  | .ENAMETOOLONG => "file name too long"
  | .EINVAL => "invalid argument"

/-- A Go `error` as the handlers meet it: an `*fs.PathError`, or `os.ErrInvalid`. -/
inductive GoError where
  | path (Op Path : String) (Err : Errno)
  | invalid
  deriving DecidableEq, Repr

/-- Go `err.Error()`. -/
def GoError.Error : GoError → String
  | .path op name err => op ++ " " ++ name ++ ": " ++ err.Error
  | .invalid => "invalid argument"

/-- Go `errors.Is(err, os.ErrNotExist)`. -/
def GoError.IsNotExist : GoError → Bool
  | .path _ _ .ENOENT => true
  | _ => false

/-! ## The directory `./images/` -/

/-- An entry of the directory: a regular file with its bytes, or a subdirectory (empty or
not). -/
inductive Node where
  | file (data : List UInt8)
  | dir (empty : Bool)
  deriving DecidableEq, Repr

/-- What reading a file name as UTF-8 yields at one position, the way Go decodes a string: a
character, or a byte that begins no valid encoding. -/
inductive NameUnit where
  | char (c : Char)
  | byte (b : UInt8)
  deriving DecidableEq, Repr

/-- A file name as the file system holds it, a byte string, given by what it decodes to. -/
abbrev RawName := List NameUnit

/-- The bytes of a unit of a name. -/
def NameUnit.bytes : NameUnit → List UInt8
  | .char c => String.utf8EncodeChar c
  | .byte b => [b]

/-- The bytes of a name. -/
def rawBytes (n : RawName) : List UInt8 :=
  n.flatMap NameUnit.bytes

/-- A text as a file name. -/
def rawOfString (s : String) : RawName :=
  s.toList.map NameUnit.char

/-- State of the directory `./images/`. -/
structure FS where
  /-- Whether the directory exists. -/
  present : Bool
  /-- The entries whose name is valid UTF-8: name to node, no name twice. -/
  entries : AList (fun _ : String => Node)
  /-- The names of the entries whose name is not valid UTF-8.  The requests of the model
  carry names as text, so none of them names such an entry; they show in the listing only. -/
  stray : List RawName

/-- The directory exists and is empty. -/
instance : EmptyCollection FS :=
  ⟨{ present := true, entries := ∅, stray := [] }⟩

/-- The node an entry name is bound to. -/
def FS.lookup (fs : FS) (name : String) : Option Node :=
  fs.entries.lookup name

/-- Binds an entry name to a node. -/
def FS.insert (fs : FS) (name : String) (node : Node) : FS :=
  { fs with entries := fs.entries.insert name node }

/-- Removes an entry. -/
def FS.erase (fs : FS) (name : String) : FS :=
  { fs with entries := fs.entries.erase name }

/-- Every name the directory holds, as bytes read as UTF-8. -/
def FS.names (fs : FS) : List RawName :=
  fs.entries.keys.map rawOfString ++ fs.stray

/-- Path of an entry, as the source builds it: `"./images/" + name`. -/
def imagePath (name : String) : String :=
  "./images/" ++ name

/-- Longest name of a directory entry, in bytes (`NAME_MAX`). -/
def nameMax : Nat := 255

/-- How the file system takes the path `"./images/" + name`. -/
inductive PathKind where
  /-- The name holds a NUL byte: refused before any lookup. -/
  | invalid
  /-- The path is the directory itself or its parent: `""`, `"."`, `".."`, separators. -/
  | directory
  /-- The name holds a separator among other characters: the path leads through a
  subdirectory. -/
  | through
  /-- The name is longer than `nameMax` bytes. -/
  | tooLong
  /-- The path is the entry `name` of the directory. -/
  | entry
  deriving DecidableEq, Repr

/-- Classifies a name. -/
def pathKind (name : String) : PathKind :=
  if name.toList.contains (Char.ofNat 0) then .invalid
  else if name.toList.all (fun c => c == '/') || name == "." || name == ".." then .directory
  else if name.toList.contains '/' then .through
  else if nameMax < name.utf8ByteSize then .tooLong
  else .entry

/-- Resolves `"./images/" + name`: the error number of a failed lookup, or the node found,
if any.  The content of subdirectories is not part of the state: a path through one is
answered as missing.  No handler is given such a name: the form reader hands over base
names and the router variables without a separator.  The directory itself and its parent
are found as directories that cannot be removed: the router hands over no empty name. -/
def FS.find (fs : FS) (name : String) : Except Errno (Option Node) :=
  match pathKind name with
  | .invalid => .error .EINVAL
  | kind =>
    if !fs.present then .error .ENOENT
    else
      match kind with
      | .invalid => .error .EINVAL
      | .directory => .ok (some (.dir false))
      | .through => .error .ENOENT
      | .tooLong => .error .ENAMETOOLONG
      | .entry => .ok (fs.lookup name)

/-- An open `*os.File`: the entry it was opened on, or `none` for the nil pointer. -/
abbrev File := Option String

/-- Go `os.Stat("./images/" + name)`. -/
def osStat (fs : FS) (name : String) : Except GoError Node :=
  match fs.find name with
  | .error e => .error (.path "stat" (imagePath name) e)
  | .ok none => .error (.path "stat" (imagePath name) .ENOENT)
  | .ok (some n) => .ok n

/-- Go `os.Create("./images/" + name)`, that is `OpenFile` with
`O_RDWR|O_CREATE|O_TRUNC`: a missing file is created empty, an existing file is truncated, a
directory cannot be opened for writing.  Returns the handle (nil on error), the error, and
the directory afterwards. -/
def osCreate (fs : FS) (name : String) : File × Option GoError × FS :=
  match fs.find name with
  | .error e => (none, some (.path "open" (imagePath name) e), fs)
  | .ok (some (.dir _)) => (none, some (.path "open" (imagePath name) .EISDIR), fs)
  | .ok _ => (some name, none, fs.insert name (.file []))

/-- Go `os.OpenFile("./images/" + name, os.O_RDWR, 0644)`: opens an existing regular file
as it is, creating and truncating nothing. -/
def osOpenFileRDWR (fs : FS) (name : String) : File × Option GoError :=
  match fs.find name with
  | .error e => (none, some (.path "open" (imagePath name) e))
  | .ok none => (none, some (.path "open" (imagePath name) .ENOENT))
  | .ok (some (.dir _)) => (none, some (.path "open" (imagePath name) .EISDIR))
  | .ok (some (.file _)) => (some name, none)

/-- Go `io.Copy(dst, src)` into a file just opened (offset 0): a nil `*os.File` is refused
with `os.ErrInvalid`; otherwise the bytes of `src` overwrite the file from its start and
what the file held beyond them stays. -/
def ioCopy (fs : FS) (dst : File) (src : List UInt8) : Except GoError FS :=
  match dst with
  | none => .error .invalid
  | some name =>
    match fs.lookup name with
    | some (.file old) => .ok (fs.insert name (.file (src ++ old.drop src.length)))
    | _ => .error .invalid

/-- Go `os.Remove("./images/" + name)`: removes a file or an empty directory. -/
def osRemove (fs : FS) (name : String) : Except GoError FS :=
  match fs.find name with
  | .error e => .error (.path "remove" (imagePath name) e)
  | .ok none => .error (.path "remove" (imagePath name) .ENOENT)
  | .ok (some (.dir false)) => .error (.path "remove" (imagePath name) .ENOTEMPTY)
  | .ok (some _) => .ok (fs.erase name)

/-- Go `os.ReadFile("./images/" + name)`. -/
def osReadFile (fs : FS) (name : String) : Except GoError (List UInt8) :=
  match fs.find name with
  | .error e => .error (.path "open" (imagePath name) e)
  | .ok none => .error (.path "open" (imagePath name) .ENOENT)
  | .ok (some (.dir _)) => .error (.path "read" (imagePath name) .EISDIR)
  | .ok (some (.file data)) => .ok data

/-- Go `os.Open("./images/")`: fails when the directory does not exist. -/
def osOpenDir (fs : FS) : Except GoError Unit :=
  if fs.present then .ok () else .error (.path "open" "./images/" .ENOENT)

/-- Go `list.Readdir(-1)` with `Name()` of each entry: every name of the directory, in no
meaningful order.  Reading an open directory does not fail here. -/
def Readdir (fs : FS) : Except GoError (List RawName) :=
  .ok fs.names

/-! ## encoding/json -/

/-- Hexadecimal digit, lower case. -/
def hexDigit (n : Nat) : Char :=
  "0123456789abcdef".toList.getD n '0'

/-- How the JSON encoder (HTML escaping on, as `json.NewEncoder` has it) writes one character
of a string. -/
def jsonEscape (c : Char) : List Char :=
  if c = '\\' ∨ c = '"' then ['\\', c]
  else if c = Char.ofNat 8 then ['\\', 'b']
  else if c = Char.ofNat 12 then ['\\', 'f']
  else if c = '\n' then ['\\', 'n']
  else if c = '\r' then ['\\', 'r']
  else if c = '\t' then ['\\', 't']
  else if c.toNat < 32 ∨ c = '<' ∨ c = '>' ∨ c = '&' then
    ['\\', 'u', '0', '0', hexDigit (c.toNat / 16), hexDigit (c.toNat % 16)]
  else if c = Char.ofNat 8232 ∨ c = Char.ofNat 8233 then
    ['\\', 'u', '2', '0', '2', hexDigit (c.toNat % 16)]
  else [c]

/-- How the encoder writes one unit of a Go string: a character as above, an invalid byte as
the escape of U+FFFD. -/
def jsonUnit : NameUnit → List Char
  | .char c => jsonEscape c
  | .byte _ => ['\\', 'u', 'f', 'f', 'f', 'd']

/-- A Go string as a JSON string literal. -/
def jsonString (s : RawName) : List Char :=
  '"' :: s.flatMap jsonUnit ++ ['"']

/-- The loop of the array encoder: a comma before every element but the first. -/
def jsonElems : Bool → List RawName → List Char
  | _, [] => []
  | first, s :: t => (if first then [] else [',']) ++ jsonString s ++ jsonElems false t

/-- A non-nil `[]string` as a JSON array. -/
def jsonArray (l : List RawName) : String :=
  String.mk ('[' :: jsonElems true l ++ [']'])

/-- Go `json.NewEncoder(w).Encode(v)` for a `[]string`: the array and a newline, in one
write, and the error of that write: none here, a write to the response does not fail. -/
def jsonEncode (w : ResponseWriter) (v : List RawName) : ResponseWriter × Option GoError :=
  (w.Write (utf8 (jsonArray v ++ "\n")), none)

/-- What a JSON reader gets back for a unit of a name: the character, or U+FFFD for an
invalid byte. -/
def NameUnit.text : NameUnit → Char
  | .char c => c
  | .byte _ => Char.ofNat 65533

/-- What a JSON reader gets back for a name. -/
def rawText (n : RawName) : String :=
  String.mk (n.map NameUnit.text)

/-! ### Reading the array back

`TestFetchlist` reads the body with `json.Unmarshal` into a `[]string`.  The reader below
accepts JSON arrays of strings; an escape `\u` is taken as one character (the encoder never
writes a surrogate pair). -/

/-- Value of a hexadecimal digit. -/
def hexVal (c : Char) : Option Nat :=
  if '0' ≤ c ∧ c ≤ '9' then some (c.toNat - '0'.toNat)
  else if 'a' ≤ c ∧ c ≤ 'f' then some (c.toNat - 'a'.toNat + 10)
  else if 'A' ≤ c ∧ c ≤ 'F' then some (c.toNat - 'A'.toNat + 10)
  else none

/-- The character a one-letter escape stands for. -/
def unescape (c : Char) : Option Char :=
  if c = '"' ∨ c = '\\' ∨ c = '/' then some c
  else if c = 'b' then some (Char.ofNat 8)
  else if c = 'f' then some (Char.ofNat 12)
  else if c = 'n' then some '\n'
  else if c = 'r' then some '\r'
  else if c = 't' then some '\t'
  else none

/-- Puts a character in front of what the rest of the literal reads as. -/
def consChar (c : Char) : Option (List Char × List Char) → Option (List Char × List Char)
  | none => none
  | some (s, rest) => some (c :: s, rest)

/-- Reads a string literal after its opening quote: the characters it stands for, and what
follows the closing quote. -/
def readString : List Char → Option (List Char × List Char)
  | [] => none
  | c :: rest =>
    if c = '"' then some ([], rest)
    else if c = '\\' then
      match rest with
      | [] => none
      | e :: rest1 =>
        if e = 'u' then
          match rest1 with
          | x1 :: x2 :: x3 :: x4 :: rest2 =>
            match hexVal x1, hexVal x2, hexVal x3, hexVal x4 with
            | some v1, some v2, some v3, some v4 =>
              consChar (Char.ofNat (((v1 * 16 + v2) * 16 + v3) * 16 + v4)) (readString rest2)
            | _, _, _, _ => none
          | _ => none
        else
          match unescape e with
          | none => none
          | some x => consChar x (readString rest1)
    else if c.toNat < 32 then none
    else consChar c (readString rest)

/-- Skips JSON white space. -/
def skipSpace : List Char → List Char
  | [] => []
  | c :: cs => if c = ' ' ∨ c = '\t' ∨ c = '\r' ∨ c = '\n' then skipSpace cs else c :: cs

/-- Reads the elements after the first and the closing bracket; `fuel` bounds their
number. -/
def readMore : Nat → List Char → Option (List String × List Char)
  | 0, _ => none
  | fuel + 1, cs =>
    match skipSpace cs with
    | ']' :: rest => some ([], rest)
    | ',' :: rest =>
      match skipSpace rest with
      | '"' :: rest1 =>
        match readString rest1 with
        | none => none
        | some (s, rest2) =>
          match readMore fuel rest2 with
          | none => none
          | some (l, rest3) => some (String.mk s :: l, rest3)
      | _ => none
    | _ => none

/-- Reads a whole text as a JSON array of strings, as `json.Unmarshal` into a `[]string`
does. -/
def jsonDecode (text : String) : Option (List String) :=
  match skipSpace text.toList with
  | '[' :: rest =>
    match skipSpace rest with
    | ']' :: rest1 => if skipSpace rest1 = [] then some [] else none
    | '"' :: rest1 =>
      match readString rest1 with
      | none => none
      | some (s, rest2) =>
        match readMore text.length rest2 with
        | none => none
        | some (l, rest3) => if skipSpace rest3 = [] then some (String.mk s :: l) else none
    | _ => none
  | _ => none

/-! ## The request -/

/-- A file part of the multipart form: Go `multipart.FileHeader` with the bytes its `Open`
yields. -/
structure FileHeader where
  /-- Name of the file as the form reader reports it. -/
  Filename : String
  /-- Bytes of the part. -/
  content : List UInt8
  deriving DecidableEq, Repr

/-- Go `multipart.Form.File`: file parts by field name. -/
abbrev FormFiles := List (String × List FileHeader)

/-- An incoming request.  The multipart form is not decoded here: the request carries what
decoding its body yields (`form`) and how many bytes of the body the form reader has to read
for that (`formBytes`: through the closing delimiter of the form, or up to the point where
it gives up).  Bytes that follow the closing delimiter are never read. -/
structure Request where
  /-- Header map of the request. -/
  Header : Header
  /-- Route variables, Go `mux.Vars(r)`. -/
  Vars : List (String × String)
  /-- Length of the body the client sent. -/
  bodyLen : Nat
  /-- Bytes of the body the form reader reads. -/
  formBytes : Nat
  /-- What the form reader yields on an unlimited body: the file parts, or an error text. -/
  form : Except String FormFiles
  /-- Cap on the bytes that may be read from the body, once `MaxBytesReader` wraps it. -/
  limit : Option Nat
  /-- Whether the byte at an offset of the body lies in the content of a part, and not in a
  delimiter line or in the header of a part. -/
  inPart : Nat → Bool

/-- Go `r.Body = http.MaxBytesReader(w, r.Body, n)`.  The wrapped body "returns a non-nil
error of type `*MaxBytesError` for a Read beyond the limit" (package documentation): the cap
is on the bytes read, the length of the body is not looked at.  Wrapping a body that is
already capped keeps the smaller cap. -/
def MaxBytesReader (r : Request) (n : Nat) : Request :=
  { r with limit := some (match r.limit with
                          | none => n
                          | some m => min m n) }

/-- Go `r.ParseMultipartForm(maxMemory)`: reads the form from the body, part by part, and
stops at the closing delimiter of the form (`NextPart` returns `io.EOF` there).  It fails
when the form reader must read beyond the cap on the body, or when the form is malformed.
The error of the cap comes as it is from the copy of a part, and wrapped by `NextPart`
between the parts.  (`maxMemory` decides only where the parts are buffered.) -/
def ParseMultipartForm (r : Request) (_maxMemory : Nat) : Except String FormFiles :=
  match r.limit with
  | none => r.form
  | some n =>
    if n < r.formBytes then
      if r.inPart n then .error "http: request body too large"
      else .error "multipart: NextPart: http: request body too large"
    else r.form

/-- Go `r.FormFile(key)`: the first file part under `key`, or `http.ErrMissingFile`. -/
def FormFile (form : FormFiles) (key : String) : Except String FileHeader :=
  match List.lookup key form with
  | some (fh :: _) => .ok fh
  | _ => .error "http: no such file"

/-- Go `mux.Vars(r)[key]`: the route variable, `""` when there is none. -/
def muxVars (r : Request) (key : String) : String :=
  (List.lookup key r.Vars).getD ""

/-! ## mime/multipart: from the parts the client sent to the file parts

The handlers never see the `filename` parameter a client wrote: `ParseMultipartForm` builds
each `FileHeader` from `Part.FileName`, which reduces the parameter to its last path element
(RFC 7578, section 4.2).  `TestUpload` relies on it: it sends the file name
`./test_images/1.jpg` and expects the confirmation, and the stored file, to be named
`1.jpg`. -/

/-- Go `filepath.Base` where the separator is `/`: trailing separators are dropped and the
last path element is kept; `.` for the empty path, `/` for a path of separators only. -/
def filepathBase (path : String) : String :=
  if path = "" then "."
  else
    let stripped := path.toList.reverse.dropWhile (fun c => c == '/')
    let last := (stripped.takeWhile (fun c => c != '/')).reverse
    if last = [] then "/" else String.mk last

/-- A part of the multipart body, as the client sent it. -/
structure Part where
  /-- Parameter `name` of the part's `Content-Disposition` (Go `Part.FormName`). -/
  name : String
  /-- Parameter `filename` of the part's `Content-Disposition`, `""` when there is none. -/
  filename : String
  /-- Bytes of the part. -/
  content : List UInt8
  deriving DecidableEq, Repr

/-- Go `Part.FileName`: `""` without a `filename` parameter, else its `filepath.Base`. -/
def Part.FileName (p : Part) : String :=
  if p.filename = "" then "" else filepathBase p.filename

/-- Go `form.File[name] = append(form.File[name], fh)`. -/
def appendFile (name : String) (fh : FileHeader) : FormFiles → FormFiles
  | [] => [(name, [fh])]
  | (k, fhs) :: rest =>
    if k = name then (k, fhs ++ [fh]) :: rest else (k, fhs) :: appendFile name fh rest

/-- The loop of Go `multipart.Reader.readForm` over the parts, as far as `Form.File` goes: a
part without a field name is skipped, a part without a file name is a value, every other
part is a file under its field name. -/
def readForm : FormFiles → List Part → FormFiles
  | form, [] => form
  | form, p :: ps =>
    if p.name = "" then readForm form ps
    else if p.FileName = "" then readForm form ps
    else readForm (appendFile p.name { Filename := p.FileName, content := p.content } form) ps

/-- A request to `/upload` or `/update` whose body of `bodyLen` bytes holds a well-formed
form of the given parts, read in `formBytes` bytes. -/
def multipartRequest (h : Header) (bodyLen formBytes : Nat) (parts : List Part) : Request :=
  { Header := h, Vars := [], bodyLen := bodyLen, formBytes := formBytes,
    form := .ok (readForm [] parts), limit := none, inPart := fun _ => true }

/-! ## The handlers of `main.go` -/

/-- A handler: the response so far, the request and the directory, to the response and the
directory afterwards. -/
abbrev Handler := ResponseWriter → Request → FS → ResponseWriter × FS

/-- Lines 39-54 of `Upload`, and 97-111 of `Update` with its own text: create the file (an
error is only logged), copy the part into it, confirm. -/
def createAndCopy (w : ResponseWriter) (fs : FS) (handler : FileHeader) (after : String) :
    ResponseWriter × FS :=
  match osCreate fs handler.Filename with
  | (catfile, _, fs1) =>
    match ioCopy fs1 catfile handler.content with
    | .error err => (httpError w err.Error 500, fs1)
    | .ok fs2 => (Fprintf w (Sprintf "File - " after handler.Filename), fs2)

/-- Source: `func Upload(w http.ResponseWriter, r *http.Request)`. -/
def Upload : Handler := fun w r fs =>
  let r := MaxBytesReader r maxFileSize
  match ParseMultipartForm r maxFileSize with
  | .error err => (httpError w err 400, fs)
  | .ok form =>
    match FormFile form "image" with
    | .error _ =>
      (httpError w "Image can't be fetched. Check if the parameter key is 'image'." 400, fs)
    | .ok handler => createAndCopy w fs handler "  was uploaded successfully"

/-- Source: `func Delete(w http.ResponseWriter, r *http.Request)`. -/
def Delete : Handler := fun w r fs =>
  let w := w.SetHeader "Access-Control-Allow-Origin" "*"
  let w := w.SetHeader "Access-Control-Allow-Methods" "DELETE"
  let w := w.SetHeader "Access-Control-Allow-Headers" "Content-Type"
  let filename := muxVars r "name"
  match osRemove fs filename with
  | .error err => (httpError w err.Error 500, fs)
  | .ok fs1 => (Fprintf w (Sprintf "File - " "  was deleted successfully" filename), fs1)

/-- Lines 113-126 of `Update`: open the existing file read-write (an error is only logged),
copy the part into it, confirm. -/
def openAndCopy (w : ResponseWriter) (fs : FS) (handler : FileHeader) : ResponseWriter × FS :=
  match osOpenFileRDWR fs handler.Filename with
  | (catfile, _) =>
    match ioCopy fs catfile handler.content with
    | .error err => (httpError w err.Error 500, fs)
    | .ok fs1 => (Fprintf w (Sprintf "File - " "  was updated successfully" handler.Filename), fs1)

/-- Source: `func Update(w http.ResponseWriter, r *http.Request)`. -/
def Update : Handler := fun w r fs =>
  let r := MaxBytesReader r maxFileSize
  match ParseMultipartForm r maxFileSize with
  | .error err => (httpError w err 400, fs)
  | .ok form =>
    match FormFile form "image" with
    | .error _ =>
      (httpError w "Image can't be fetched. Check if the parameter key is 'image'." 400, fs)
    | .ok handler =>
      match osStat fs handler.Filename with
      | .error err =>
        if err.IsNotExist then
          createAndCopy w fs handler " - didn't exist, so the file was uploaded successfully"
        else openAndCopy w fs handler
      | .ok _ => openAndCopy w fs handler

/-- Lines 140-151 of `Fetch`: read the file, set the two headers, write the bytes, then the
confirmation. -/
def readAndSend (w : ResponseWriter) (fs : FS) (filename : String) : ResponseWriter × FS :=
  match osReadFile fs filename with
  | .error err => (httpError w err.Error 500, fs)
  | .ok iBytes =>
    let w := w.SetHeader "Content-Type" "image/jpg"
    let w := w.SetHeader "Content-Disposition" ("attachment;filename=\"" ++ filename ++ "\"")
    let w := w.Write iBytes
    (Fprintf w (Sprintf "File - " "  was sent successfully" filename), fs)

/-- Source: `func Fetch(w http.ResponseWriter, r *http.Request)`. -/
def Fetch : Handler := fun w r fs =>
  let filename := muxVars r "name"
  match osStat fs filename with
  | .error err =>
    if err.IsNotExist then (httpError w err.Error 400, fs)
    else readAndSend w fs filename
  | .ok _ => readAndSend w fs filename

/-- Source: `func Fetchlist(w http.ResponseWriter, r *http.Request)`: open the directory,
read its entries, take their names, encode them; an error at any of the three steps is
answered 500. -/
def Fetchlist : Handler := fun w _ fs =>
  match osOpenDir fs with
  | .error err => (httpError w err.Error 500, fs)
  | .ok _ =>
    match Readdir fs with
    | .error err => (httpError w err.Error 500, fs)
    | .ok filenames =>
      match jsonEncode w filenames with
      | (w1, some err) => (httpError w1 err.Error 500, fs)
      | (w1, none) => (w1, fs)

/-- Source: `func authenticate(next http.Handler) http.Handler`. -/
def authenticate (next : Handler) : Handler := fun w r fs =>
  let key := r.Header.Get "API-Key"
  if key ≠ apiKey then (httpError w "Unauthorized" 401, fs)
  else next w r fs

/-! ## Vocabulary of the statements -/

/-- A response nothing has been written to: the headers set so far, no status, no body. -/
def newResponse (h : Header) : ResponseWriter :=
  { Header := h, Code := none, Body := [] }

/-- The file part a request hands to `Upload` and `Update`: the first part under the field
`image` of the form, when the form is read within the cap of `maxFileSize` bytes. -/
def imagePart (r : Request) : Option FileHeader :=
  match ParseMultipartForm (MaxBytesReader r maxFileSize) maxFileSize with
  | .error _ => none
  | .ok form =>
    match FormFile form "image" with
    | .error _ => none
    | .ok fh => some fh

/-- A request to `/upload` or `/update` of `bodyLen` bytes whose form, read in `formBytes`
bytes, holds one file part `name` with bytes `content` under the field `image`. -/
def imageRequest (h : Header) (bodyLen formBytes : Nat) (name : String)
    (content : List UInt8) : Request :=
  { Header := h, Vars := [], bodyLen := bodyLen, formBytes := formBytes,
    form := .ok [("image", [{ Filename := name, content := content }])], limit := none,
    inPart := fun _ => true }

/-- A request to `/fetch/{name}` or `/delete/{name}`. -/
def nameRequest (h : Header) (name : String) : Request :=
  { Header := h, Vars := [("name", name)], bodyLen := 0, formBytes := 0,
    form := .error "request Content-Type isn't multipart/form-data", limit := none,
    inPart := fun _ => false }

/-! ## Lemmas: the response writer -/

@[simp] theorem newResponse_Code (h : Header) : (newResponse h).Code = none := rfl

@[simp] theorem newResponse_Body (h : Header) : (newResponse h).Body = [] := rfl

@[simp] theorem DelHeader_Code (w : ResponseWriter) (k : String) :
    (w.DelHeader k).Code = w.Code := by
  unfold ResponseWriter.DelHeader
  cases h : w.Code <;> simp [h]

@[simp] theorem DelHeader_Body (w : ResponseWriter) (k : String) :
    (w.DelHeader k).Body = w.Body := by
  unfold ResponseWriter.DelHeader
  cases h : w.Code <;> simp

@[simp] theorem SetHeader_Code (w : ResponseWriter) (k v : String) :
    (w.SetHeader k v).Code = w.Code := by
  unfold ResponseWriter.SetHeader
  cases h : w.Code <;> simp [h]

@[simp] theorem SetHeader_Body (w : ResponseWriter) (k v : String) :
    (w.SetHeader k v).Body = w.Body := by
  unfold ResponseWriter.SetHeader
  cases h : w.Code <;> simp

theorem WriteHeader_Code_of_none (w : ResponseWriter) (c : Nat) (h : w.Code = none) :
    (w.WriteHeader c).Code = some c := by
  simp [ResponseWriter.WriteHeader, h]

theorem WriteHeader_Code_of_some (w : ResponseWriter) (c d : Nat) (h : w.Code = some d) :
    (w.WriteHeader c).Code = some d := by
  simp [ResponseWriter.WriteHeader, h]

@[simp] theorem WriteHeader_Body (w : ResponseWriter) (c : Nat) :
    (w.WriteHeader c).Body = w.Body := by
  unfold ResponseWriter.WriteHeader
  cases h : w.Code <;> simp

@[simp] theorem WriteHeader_Header (w : ResponseWriter) (c : Nat) :
    (w.WriteHeader c).Header = w.Header := by
  unfold ResponseWriter.WriteHeader
  cases h : w.Code <;> simp

theorem Write_Code_of_none (w : ResponseWriter) (b : List UInt8) (h : w.Code = none) :
    (w.Write b).Code = some 200 := by
  simp [ResponseWriter.Write, WriteHeader_Code_of_none w 200 h]

theorem Write_Code_of_some (w : ResponseWriter) (b : List UInt8) (d : Nat)
    (h : w.Code = some d) : (w.Write b).Code = some d := by
  simp [ResponseWriter.Write, WriteHeader_Code_of_some w 200 d h]

@[simp] theorem Write_Body (w : ResponseWriter) (b : List UInt8) :
    (w.Write b).Body = w.Body ++ b := by
  simp [ResponseWriter.Write]

@[simp] theorem Write_Header (w : ResponseWriter) (b : List UInt8) :
    (w.Write b).Header = w.Header := by
  simp [ResponseWriter.Write]

theorem httpError_Code (w : ResponseWriter) (e : String) (c : Nat) (h : w.Code = none) :
    (httpError w e c).Code = some c := by
  unfold httpError
  apply Write_Code_of_some
  apply WriteHeader_Code_of_none
  simp [h]

@[simp] theorem httpError_Body (w : ResponseWriter) (e : String) (c : Nat) :
    (httpError w e c).Body = w.Body ++ utf8 (e ++ "\n") := by
  simp [httpError]

theorem Fprintf_Code (w : ResponseWriter) (f : String) (h : w.Code = none) :
    (Fprintf w f).Code = some 200 :=
  Write_Code_of_none w _ h

@[simp] theorem Fprintf_Body (w : ResponseWriter) (f : String) :
    (Fprintf w f).Body = w.Body ++ utf8 (doPrintf f) := by
  simp [Fprintf]

@[simp] theorem Fprintf_Header (w : ResponseWriter) (f : String) :
    (Fprintf w f).Header = w.Header := by
  simp [Fprintf]

/-! ## Lemmas: formatting -/

theorem skipFlags_length (cs : List Char) : (skipFlags cs).length ≤ cs.length := by
  induction cs with
  | nil => simp [skipFlags]
  | cons c cs ih =>
    unfold skipFlags
    split
    · exact Nat.le_succ_of_le ih
    · exact Nat.le_refl _

theorem parsenumLoop_length (cs : List Char) :
    ∀ (num : Nat) (isnum : Bool), (parsenumLoop num isnum cs).2.2.length ≤ cs.length := by
  induction cs with
  | nil => intro num isnum; simp [parsenumLoop]
  | cons c cs ih =>
    intro num isnum
    unfold parsenumLoop
    split
    · split
      · simp
      · exact Nat.le_succ_of_le (ih _ _)
    · exact Nat.le_refl _

theorem parsenum_length (cs : List Char) : (parsenum cs).2.2.length ≤ cs.length :=
  parsenumLoop_length cs 0 false

theorem span_snd_length (p : Char → Bool) (cs : List Char) :
    (cs.span p).2.length ≤ cs.length := by
  have h := List.span_eq_take_drop p cs
  rw [h]
  simp [List.dropWhile]
  exact (List.dropWhile_suffix p).length_le

theorem parseArgNumber_length (cs : List Char) :
    (parseArgNumber cs).2.length ≤ cs.length := by
  unfold parseArgNumber
  split
  · simp
  · have hs := span_snd_length (fun c => c != ']') cs.tail
    split
    · simp
    · rename_i inner x after heq
      rw [heq] at hs
      have h2 : after.length ≤ cs.length := by
        have : cs.tail.length ≤ cs.length := by simp
        simp at hs
        omega
      split <;> exact h2

theorem argNumber_length (s : Scan) : (argNumber s).rest.length ≤ s.rest.length := by
  unfold argNumber
  split
  · exact parseArgNumber_length _
  · exact Nat.le_refl _

theorem width_length (s : Scan) : (width s).rest.length ≤ s.rest.length := by
  unfold width
  split
  · rename_i h
    simp [h]
  · exact parsenum_length _

theorem precision_length (s : Scan) : (precision s).rest.length ≤ s.rest.length := by
  unfold precision
  split
  · rename_i c cs h
    have h1 := argNumber_length
      { s with rest := c :: cs, goodArgNum := s.goodArgNum && !s.afterIndex }
    simp only at h1
    simp only
    split
    · rename_i rest2 h2
      simp only [h, List.length_cons]
      rw [h2] at h1
      simp only [List.length_cons] at h1
      omega
    · have h3 := parsenum_length (argNumber
        { s with rest := c :: cs, goodArgNum := s.goodArgNum && !s.afterIndex }).rest
      simp only [h, List.length_cons]
      simp only [List.length_cons] at h1
      omega
  · exact Nat.le_refl _

theorem lastIndex_length (s : Scan) : (lastIndex s).rest.length ≤ s.rest.length := by
  unfold lastIndex
  split
  · exact Nat.le_refl _
  · exact argNumber_length s

theorem verb_length (s : Scan) : (verb s).2.length ≤ s.rest.length := by
  unfold verb
  split
  · simp
  · rename_i v rest h
    simp only [h, List.length_cons]
    split
    · simp
    · split <;> simp

theorem directive_length (cs : List Char) : (directive cs).2.length ≤ cs.length := by
  unfold directive
  refine le_trans (verb_length _) ?_
  refine le_trans (lastIndex_length _) ?_
  refine le_trans (precision_length _) ?_
  refine le_trans (width_length _) ?_
  refine le_trans (argNumber_length _) ?_
  exact skipFlags_length cs

/-- Fuel beyond the length of the format changes nothing: the loop of `doPrintf` ends by
itself. -/
theorem doPrintfLoop_fuel : ∀ (n : Nat) (cs : List Char) (m : Nat),
    cs.length ≤ n → cs.length ≤ m → doPrintfLoop n cs = doPrintfLoop m cs := by
  intro n
  induction n with
  | zero =>
    intro cs m hn hm
    have : cs = [] := List.length_eq_zero.mp (Nat.le_zero.mp hn)
    subst this
    cases m <;> simp [doPrintfLoop]
  | succ n ih =>
    intro cs m hn hm
    cases cs with
    | nil => cases m <;> simp [doPrintfLoop]
    | cons c cs =>
      cases m with
      | zero => simp at hm
      | succ m =>
        simp only [List.length_cons, Nat.add_le_add_iff_right] at hn hm
        unfold doPrintfLoop
        split
        · have hd := directive_length cs
          simp only
          rw [ih (directive cs).2 m (le_trans hd hn) (le_trans hd hm)]
        · rw [ih cs m hn hm]

/-- A format without `%` is written as it is. -/
theorem doPrintfLoop_of_no_percent : ∀ (cs : List Char) (n : Nat),
    '%' ∉ cs → cs.length ≤ n → doPrintfLoop n cs = cs := by
  intro cs
  induction cs with
  | nil => intro n _ _; cases n <;> simp [doPrintfLoop]
  | cons c cs ih =>
    intro n hp hn
    cases n with
    | zero => simp at hn
    | succ n =>
      simp only [List.mem_cons, not_or] at hp
      simp only [List.length_cons, Nat.add_le_add_iff_right] at hn
      unfold doPrintfLoop
      rw [if_neg (fun h => hp.1 h.symm), ih n hp.2 hn]

theorem doPrintf_of_no_percent (s : String) (h : '%' ∉ s.toList) : doPrintf s = s := by
  unfold doPrintf
  rw [doPrintfLoop_of_no_percent s.toList s.length h (Nat.le_refl _)]
  cases s
  rfl

/-! ## Lemmas: the directory -/

@[simp] theorem FS.lookup_insert (fs : FS) (n : String) (x : Node) :
    (fs.insert n x).lookup n = some x :=
  AList.lookup_insert _

theorem FS.lookup_insert_ne (fs : FS) (m n : String) (x : Node) (h : m ≠ n) :
    (fs.insert n x).lookup m = fs.lookup m :=
  AList.lookup_insert_ne h

@[simp] theorem FS.lookup_erase (fs : FS) (n : String) : (fs.erase n).lookup n = none :=
  AList.lookup_erase _ _

theorem FS.lookup_erase_ne (fs : FS) (m n : String) (h : m ≠ n) :
    (fs.erase n).lookup m = fs.lookup m :=
  AList.lookup_erase_ne h

@[simp] theorem FS.insert_insert (fs : FS) (n : String) (x y : Node) :
    (fs.insert n x).insert n y = fs.insert n y := by
  simp [FS.insert, AList.insert_insert]

@[simp] theorem FS.present_insert (fs : FS) (n : String) (x : Node) :
    (fs.insert n x).present = fs.present := rfl

@[simp] theorem FS.stray_insert (fs : FS) (n : String) (x : Node) :
    (fs.insert n x).stray = fs.stray := rfl

@[simp] theorem FS.present_erase (fs : FS) (n : String) :
    (fs.erase n).present = fs.present := rfl

/-- A name of the kind `entry` in an existing directory is looked up in the map. -/
theorem FS.find_entry (fs : FS) (name : String) (hp : fs.present = true)
    (hk : pathKind name = .entry) : fs.find name = .ok (fs.lookup name) := by
  simp [FS.find, hk, hp]

/-- A lookup that does not end on a directory was the lookup of an entry name in an
existing directory. -/
theorem FS.find_not_dir (fs : FS) (name : String) (o : Option Node)
    (h : fs.find name = .ok o) (hd : ∀ e, o ≠ some (.dir e)) :
    fs.present = true ∧ pathKind name = .entry ∧ o = fs.lookup name := by
  unfold FS.find at h
  cases hk : pathKind name <;> rw [hk] at h <;> simp only at h
  · simp at h
  · cases hp : fs.present <;> simp [hp] at h
    exact absurd h.symm (hd false)
  · cases hp : fs.present <;> simp [hp] at h
  · cases hp : fs.present <;> simp [hp] at h
  · cases hp : fs.present <;> simp [hp] at h
    exact ⟨rfl, rfl, h.symm⟩

/-! ## Lemmas: the handlers on the directory -/

theorem Upload_of_imagePart (w : ResponseWriter) (r : Request) (fs : FS) (fh : FileHeader)
    (h : imagePart r = some fh) :
    Upload w r fs = createAndCopy w fs fh "  was uploaded successfully" := by
  unfold imagePart at h
  unfold Upload
  cases hp : ParseMultipartForm (MaxBytesReader r maxFileSize) maxFileSize with
  | error e => simp [hp] at h
  | ok form =>
    cases hf : FormFile form "image" with
    | error e => simp [hp, hf] at h
    | ok fh2 =>
      simp [hp, hf] at h
      simp [hp, hf, h]

theorem Upload_of_no_imagePart (w : ResponseWriter) (r : Request) (fs : FS)
    (h : imagePart r = none) :
    ∃ e, Upload w r fs = (httpError w e 400, fs) := by
  unfold imagePart at h
  unfold Upload
  cases hp : ParseMultipartForm (MaxBytesReader r maxFileSize) maxFileSize with
  | error e => exact ⟨e, by simp [hp]⟩
  | ok form =>
    cases hf : FormFile form "image" with
    | error e => exact ⟨_, by simp [hp, hf]; rfl⟩
    | ok fh2 => simp [hp, hf] at h

/-- `os.Create` failed, or found a directory: the copy into the nil file fails and the
handler answers 500. -/
theorem createAndCopy_of_refused (w : ResponseWriter) (fs : FS) (fh : FileHeader)
    (after : String) (h : ∀ o, fs.find fh.Filename = .ok o → ∃ e, o = some (.dir e)) :
    createAndCopy w fs fh after = (httpError w "invalid argument" 500, fs) := by
  unfold createAndCopy osCreate
  cases hf : fs.find fh.Filename with
  | error e => simp [ioCopy, GoError.Error]
  | ok o =>
    obtain ⟨e, he⟩ := h o hf
    subst he
    simp [ioCopy, GoError.Error]

theorem createAndCopy_of_writable (w : ResponseWriter) (fs : FS) (fh : FileHeader)
    (after : String) (o : Option Node) (h : fs.find fh.Filename = .ok o)
    (hd : ∀ e, o ≠ some (.dir e)) :
    createAndCopy w fs fh after =
      (Fprintf w (Sprintf "File - " after fh.Filename),
        fs.insert fh.Filename (.file fh.content)) := by
  have hc : osCreate fs fh.Filename
      = (some fh.Filename, none, fs.insert fh.Filename (.file [])) := by
    unfold osCreate
    rw [h]
    cases o with
    | none => rfl
    | some n =>
      cases n with
      | file d => rfl
      | dir e => exact absurd rfl (hd e)
  simp [createAndCopy, hc, ioCopy]

/-- Either `os.Create` gives a file, or the handler answers 500 and leaves the directory. -/
theorem createAndCopy_cases (w : ResponseWriter) (fs : FS) (fh : FileHeader)
    (after : String) :
    (createAndCopy w fs fh after = (httpError w "invalid argument" 500, fs)) ∨
    (createAndCopy w fs fh after =
        (Fprintf w (Sprintf "File - " after fh.Filename),
          fs.insert fh.Filename (.file fh.content)) ∧
      fs.present = true ∧ pathKind fh.Filename = .entry ∧
      ∀ e, fs.lookup fh.Filename ≠ some (.dir e)) := by
  by_cases hw : ∃ o, fs.find fh.Filename = .ok o ∧ ∀ e, o ≠ some (.dir e)
  · obtain ⟨o, ho, hd⟩ := hw
    obtain ⟨hp, hk, hl⟩ := FS.find_not_dir fs _ o ho hd
    exact Or.inr ⟨createAndCopy_of_writable w fs fh after o ho hd, hp, hk,
      fun e he => hd e (hl.trans he)⟩
  · left
    apply createAndCopy_of_refused
    intro o ho
    by_contra hne
    exact hw ⟨o, ho, fun e he => hne ⟨e, he⟩⟩

theorem Fetch_of_file (w : ResponseWriter) (r : Request) (fs : FS) (C : List UInt8)
    (hp : fs.present = true) (hk : pathKind (muxVars r "name") = .entry)
    (h : fs.lookup (muxVars r "name") = some (.file C)) :
    Fetch w r fs =
      (Fprintf (((w.SetHeader "Content-Type" "image/jpg").SetHeader "Content-Disposition"
          ("attachment;filename=\"" ++ muxVars r "name" ++ "\"")).Write C)
        (Sprintf "File - " "  was sent successfully" (muxVars r "name")), fs) := by
  simp [Fetch, osStat, FS.find_entry fs _ hp hk, h, readAndSend, osReadFile]

theorem Fetch_of_absent (w : ResponseWriter) (r : Request) (fs : FS)
    (hp : fs.present = true) (hk : pathKind (muxVars r "name") = .entry)
    (h : fs.lookup (muxVars r "name") = none) :
    Fetch w r fs =
      (httpError w (GoError.path "stat" (imagePath (muxVars r "name")) .ENOENT).Error 400,
        fs) := by
  simp [Fetch, osStat, FS.find_entry fs _ hp hk, h, GoError.IsNotExist]

/-- What a successful `Upload` leaves: on a response nothing was written to, status 200
means the file was created and filled. -/
theorem Upload_ok (h : Header) (r : Request) (fs : FS) (fh : FileHeader)
    (hr : imagePart r = some fh)
    (hok : (Upload (newResponse h) r fs).1.Code = some 200) :
    Upload (newResponse h) r fs =
      (Fprintf (newResponse h) (Sprintf "File - " "  was uploaded successfully" fh.Filename),
        fs.insert fh.Filename (.file fh.content)) := by
  rw [Upload_of_imagePart _ r fs fh hr] at hok ⊢
  rcases createAndCopy_cases (newResponse h) fs fh "  was uploaded successfully" with hc | hc
  · rw [hc, httpError_Code _ _ _ rfl] at hok
    simp at hok
  · exact hc.1

/-- A successful `Upload` was given a name the file system takes as an entry of the existing
directory. -/
theorem Upload_ok_name (h : Header) (r : Request) (fs : FS) (fh : FileHeader)
    (hr : imagePart r = some fh)
    (hok : (Upload (newResponse h) r fs).1.Code = some 200) :
    fs.present = true ∧ pathKind fh.Filename = .entry := by
  rw [Upload_of_imagePart _ r fs fh hr] at hok
  rcases createAndCopy_cases (newResponse h) fs fh "  was uploaded successfully" with hc | hc
  · rw [hc, httpError_Code _ _ _ rfl] at hok
    simp at hok
  · exact ⟨hc.2.1, hc.2.2.1⟩

theorem authenticate_of_key (next : Handler) (w : ResponseWriter) (r : Request) (fs : FS)
    (h : r.Header.Get "API-Key" = apiKey) : authenticate next w r fs = next w r fs := by
  simp [authenticate, h]

theorem authenticate_of_not_key (next : Handler) (w : ResponseWriter) (r : Request) (fs : FS)
    (h : r.Header.Get "API-Key" ≠ apiKey) :
    authenticate next w r fs = (httpError w "Unauthorized" 401, fs) := by
  simp [authenticate, h]

theorem Update_of_imagePart (w : ResponseWriter) (r : Request) (fs : FS) (fh : FileHeader)
    (h : imagePart r = some fh) :
    Update w r fs =
      match osStat fs fh.Filename with
      | .error err =>
        if err.IsNotExist then
          createAndCopy w fs fh " - didn't exist, so the file was uploaded successfully"
        else openAndCopy w fs fh
      | .ok _ => openAndCopy w fs fh := by
  unfold imagePart at h
  unfold Update
  cases hp : ParseMultipartForm (MaxBytesReader r maxFileSize) maxFileSize with
  | error e => simp [hp] at h
  | ok form =>
    cases hf : FormFile form "image" with
    | error e => simp [hp, hf] at h
    | ok fh2 =>
      simp [hp, hf] at h
      simp [hp, hf, h]

theorem Update_of_no_imagePart (w : ResponseWriter) (r : Request) (fs : FS)
    (h : imagePart r = none) :
    ∃ e, Update w r fs = (httpError w e 400, fs) := by
  unfold imagePart at h
  unfold Update
  cases hp : ParseMultipartForm (MaxBytesReader r maxFileSize) maxFileSize with
  | error e => exact ⟨e, by simp [hp]⟩
  | ok form =>
    cases hf : FormFile form "image" with
    | error e => exact ⟨_, by simp [hp, hf]; rfl⟩
    | ok fh2 => simp [hp, hf] at h

/-- `Update` on a name that holds a regular file: the part is written over the start of the
file and the rest of the old bytes stays. -/
theorem Update_of_file (w : ResponseWriter) (r : Request) (fs : FS) (N : String)
    (C O : List UInt8) (hr : imagePart r = some { Filename := N, content := C })
    (hp : fs.present = true) (hk : pathKind N = .entry)
    (hf : fs.lookup N = some (.file O)) :
    Update w r fs =
      (Fprintf w (Sprintf "File - " "  was updated successfully" N),
        fs.insert N (.file (C ++ O.drop C.length))) := by
  rw [Update_of_imagePart w r fs _ hr]
  simp [osStat, FS.find_entry fs _ hp hk, hf, openAndCopy, osOpenFileRDWR, ioCopy]

/-- `Update` on an entry name the directory does not hold: the create path of the source,
which is `Upload` with another confirmation text. -/
theorem Update_of_absent (w : ResponseWriter) (r : Request) (fs : FS) (N : String)
    (C : List UInt8) (hr : imagePart r = some { Filename := N, content := C })
    (hp : fs.present = true) (hk : pathKind N = .entry)
    (hf : fs.lookup N = none) :
    Update w r fs =
      (Fprintf w (Sprintf "File - " " - didn't exist, so the file was uploaded successfully" N),
        fs.insert N (.file C)) := by
  rw [Update_of_imagePart w r fs _ hr]
  have hfind := FS.find_entry fs N hp hk
  rw [hf] at hfind
  simp only [osStat, hfind, GoError.IsNotExist, if_true]
  exact createAndCopy_of_writable w fs _ _ none hfind (fun e he => by simp at he)

theorem Upload_of_absent (w : ResponseWriter) (r : Request) (fs : FS) (N : String)
    (C : List UInt8) (hr : imagePart r = some { Filename := N, content := C })
    (hp : fs.present = true) (hk : pathKind N = .entry)
    (hf : fs.lookup N = none) :
    Upload w r fs =
      (Fprintf w (Sprintf "File - " "  was uploaded successfully" N),
        fs.insert N (.file C)) := by
  rw [Upload_of_imagePart w r fs _ hr]
  have hfind := FS.find_entry fs N hp hk
  rw [hf] at hfind
  exact createAndCopy_of_writable w fs _ _ none hfind (fun e he => by simp at he)

/-- `Update` where the lookup of the name ends on a directory or fails for another reason
than a missing entry: the file is taken to exist, it cannot be opened, the copy into the nil
file fails, 500. -/
theorem Update_of_unopenable (w : ResponseWriter) (r : Request) (fs : FS) (N : String)
    (C : List UInt8) (hr : imagePart r = some { Filename := N, content := C })
    (hf : (∃ e, fs.find N = .ok (some (.dir e))) ∨
      (∃ e, fs.find N = .error e ∧ e ≠ .ENOENT)) :
    Update w r fs = (httpError w "invalid argument" 500, fs) := by
  rw [Update_of_imagePart w r fs _ hr]
  rcases hf with ⟨e, he⟩ | ⟨e, he, hne⟩
  · simp [osStat, he, openAndCopy, osOpenFileRDWR, ioCopy, GoError.Error]
  · have hn : (GoError.path "stat" (imagePath N) e).IsNotExist = false := by
      cases e <;> simp [GoError.IsNotExist] at hne ⊢
    simp [osStat, he, hn, openAndCopy, osOpenFileRDWR, ioCopy, GoError.Error]

theorem Delete_of_file (w : ResponseWriter) (r : Request) (fs : FS) (O : List UInt8)
    (hp : fs.present = true) (hk : pathKind (muxVars r "name") = .entry)
    (hf : fs.lookup (muxVars r "name") = some (.file O)) :
    Delete w r fs =
      (Fprintf (((w.SetHeader "Access-Control-Allow-Origin" "*").SetHeader
          "Access-Control-Allow-Methods" "DELETE").SetHeader
          "Access-Control-Allow-Headers" "Content-Type")
        (Sprintf "File - " "  was deleted successfully" (muxVars r "name")),
        fs.erase (muxVars r "name")) := by
  simp [Delete, osRemove, FS.find_entry fs _ hp hk, hf]

theorem Delete_of_absent (w : ResponseWriter) (r : Request) (fs : FS)
    (hp : fs.present = true) (hk : pathKind (muxVars r "name") = .entry)
    (hf : fs.lookup (muxVars r "name") = none) :
    Delete w r fs =
      (httpError (((w.SetHeader "Access-Control-Allow-Origin" "*").SetHeader
          "Access-Control-Allow-Methods" "DELETE").SetHeader
          "Access-Control-Allow-Headers" "Content-Type")
        (GoError.path "remove" (imagePath (muxVars r "name")) .ENOENT).Error 500, fs) := by
  simp [Delete, osRemove, FS.find_entry fs _ hp hk, hf]

/-! ## The confirmation texts: a name is read as a format -/

theorem doPrintf_Sprintf (before after N : String) (hb : '%' ∉ before.toList)
    (ha : '%' ∉ after.toList) (hN : '%' ∉ N.toList) :
    doPrintf (Sprintf before after N) = before ++ N ++ after := by
  apply doPrintf_of_no_percent
  have hb2 : '%' ∉ before.data := hb
  have ha2 : '%' ∉ after.data := ha
  have hN2 : '%' ∉ N.data := hN
  simp [Sprintf, hb2, ha2, hN2]

/-- What C4 says of `Upload`, for every name without a percent sign. -/
theorem Upload_success (fs : FS) (r : Request) (h : Header) (N : String) (C : List UInt8)
    (hr : imagePart r = some { Filename := N, content := C }) (hN : '%' ∉ N.toList)
    (hok : (Upload (newResponse h) r fs).1.Code = some 200) :
    (Upload (newResponse h) r fs).1.Body = utf8 ("File - " ++ N ++ "  was uploaded successfully") ∧
    (Upload (newResponse h) r fs).2.lookup N = some (.file C) ∧
    ∀ M, M ≠ N → (Upload (newResponse h) r fs).2.lookup M = fs.lookup M := by
  rw [Upload_ok h r fs _ hr hok]
  refine ⟨?_, FS.lookup_insert _ _ _, fun M hM => FS.lookup_insert_ne _ _ _ _ hM⟩
  simp only [Fprintf_Body, newResponse_Body, List.nil_append]
  rw [doPrintf_Sprintf _ _ _ (by decide) (by decide) hN]

/-- What C3 says of `Update` on an existing file, for every entry name without a percent
sign. -/
theorem Update_in_place (fs : FS) (r : Request) (h : Header) (N : String) (C O : List UInt8)
    (hr : imagePart r = some { Filename := N, content := C }) (hN : '%' ∉ N.toList)
    (hp : fs.present = true) (hk : pathKind N = .entry)
    (hf : fs.lookup N = some (.file O)) :
    (Update (newResponse h) r fs).1.Code = some 200 ∧
    (Update (newResponse h) r fs).1.Body = utf8 ("File - " ++ N ++ "  was updated successfully") ∧
    (Update (newResponse h) r fs).2.lookup N = some (.file (C ++ O.drop C.length)) ∧
    (C.length < O.length →
      (C ++ O.drop C.length).drop C.length = O.drop C.length ∧
      (O.drop C.length).length = O.length - C.length) ∧
    (O.length ≤ C.length → (Update (newResponse h) r fs).2.lookup N = some (.file C)) ∧
    ∀ M, M ≠ N → (Update (newResponse h) r fs).2.lookup M = fs.lookup M := by
  rw [Update_of_file _ r fs N C O hr hp hk hf]
  refine ⟨Fprintf_Code _ _ rfl, ?_, FS.lookup_insert _ _ _, fun _ => ⟨by simp, by simp⟩, ?_,
    fun M hM => FS.lookup_insert_ne _ _ _ _ hM⟩
  · simp only [Fprintf_Body, newResponse_Body, List.nil_append]
    rw [doPrintf_Sprintf _ _ _ (by decide) (by decide) hN]
  · intro hle
    simp only [FS.lookup_insert]
    rw [List.drop_eq_nil_of_le hle, List.append_nil]

/-- What C5 says of `Update` on a missing name, for every entry name without a percent
sign. -/
theorem Update_as_create (fs : FS) (r : Request) (h h2 : Header) (N : String) (C : List UInt8)
    (hr : imagePart r = some { Filename := N, content := C }) (hN : '%' ∉ N.toList)
    (hp : fs.present = true) (hk : pathKind N = .entry)
    (hf : fs.lookup N = none) :
    (Update (newResponse h) r fs).2 = (Upload (newResponse h2) r fs).2 ∧
    (Update (newResponse h) r fs).2.lookup N = some (.file C) ∧
    (∀ M, M ≠ N → (Update (newResponse h) r fs).2.lookup M = fs.lookup M) ∧
    (Update (newResponse h) r fs).1.Code = some 200 ∧
    (Update (newResponse h) r fs).1.Body =
      utf8 ("File - " ++ N ++ " - didn't exist, so the file was uploaded successfully") := by
  rw [Update_of_absent _ r fs N C hr hp hk hf, Upload_of_absent _ r fs N C hr hp hk hf]
  refine ⟨rfl, FS.lookup_insert _ _ _, fun M hM => FS.lookup_insert_ne _ _ _ _ hM,
    Fprintf_Code _ _ rfl, ?_⟩
  simp only [Fprintf_Body, newResponse_Body, List.nil_append]
  rw [doPrintf_Sprintf _ _ _ (by decide) (by decide) hN]

/-- What C6 says of `Delete`, for every entry name without a percent sign. -/
theorem Delete_outcome (fs : FS) (r : Request) (h : Header)
    (hp : fs.present = true) (hk : pathKind (muxVars r "name") = .entry) :
    (∀ O, fs.lookup (muxVars r "name") = some (.file O) → '%' ∉ (muxVars r "name").toList →
      (Delete (newResponse h) r fs).1.Code = some 200 ∧
      (Delete (newResponse h) r fs).1.Body =
        utf8 ("File - " ++ muxVars r "name" ++ "  was deleted successfully") ∧
      (Delete (newResponse h) r fs).2.lookup (muxVars r "name") = none ∧
      ∀ M, M ≠ muxVars r "name" → (Delete (newResponse h) r fs).2.lookup M = fs.lookup M) ∧
    (fs.lookup (muxVars r "name") = none →
      (Delete (newResponse h) r fs).1.Code = some 500 ∧ (Delete (newResponse h) r fs).2 = fs) := by
  constructor
  · intro O hf hN
    rw [Delete_of_file _ r fs O hp hk hf]
    refine ⟨Fprintf_Code _ _ (by simp), ?_, FS.lookup_erase _ _,
      fun M hM => FS.lookup_erase_ne _ _ _ hM⟩
    simp only [Fprintf_Body, SetHeader_Body, newResponse_Body, List.nil_append]
    rw [doPrintf_Sprintf _ _ _ (by decide) (by decide) hN]
  · intro hf
    rw [Delete_of_absent _ r fs hp hk hf]
    exact ⟨httpError_Code _ _ _ (by simp), rfl⟩

theorem Header_Get_Set (h : Header) (k v : String) : (Header.Set h k v).Get k = v := by
  simp [Header.Get, Header.Set, List.lookup]

theorem Header_Get_Set_ne (h : Header) (k k2 v : String)
    (hne : CanonicalMIMEHeaderKey k ≠ CanonicalMIMEHeaderKey k2) :
    (Header.Set h k2 v).Get k = h.Get k := by
  have h1 : (CanonicalMIMEHeaderKey k == CanonicalMIMEHeaderKey k2) = false := by
    simpa using hne
  have h2 : ∀ l : Header,
      List.lookup (CanonicalMIMEHeaderKey k)
        (List.filter (fun p => p.1 != CanonicalMIMEHeaderKey k2) l)
      = List.lookup (CanonicalMIMEHeaderKey k) l := by
    intro l
    induction l with
    | nil => rfl
    | cons p l ih =>
      obtain ⟨a, b⟩ := p
      by_cases ha : a = CanonicalMIMEHeaderKey k2
      · subst ha
        simp [List.filter, List.lookup, h1, ih]
      · have : (a != CanonicalMIMEHeaderKey k2) = true := by simpa using ha
        simp only [List.filter, this, List.lookup, ih]
  simp only [Header.Get, Header.Set, List.lookup, h1, h2]

/-- What C10 says of `Fetch`, for every entry name without a percent sign. -/
theorem Fetch_success (fs : FS) (r : Request) (h : Header) (C : List UInt8)
    (hp : fs.present = true) (hk : pathKind (muxVars r "name") = .entry)
    (hf : fs.lookup (muxVars r "name") = some (.file C))
    (hN : '%' ∉ (muxVars r "name").toList) :
    (Fetch (newResponse h) r fs).1.Code = some 200 ∧
    (Fetch (newResponse h) r fs).1.Header.Get "Content-Type" = "image/jpg" ∧
    (Fetch (newResponse h) r fs).1.Header.Get "Content-Disposition" =
      "attachment;filename=\"" ++ muxVars r "name" ++ "\"" ∧
    (Fetch (newResponse h) r fs).1.Body =
      C ++ utf8 ("File - " ++ muxVars r "name" ++ "  was sent successfully") ∧
    (Fetch (newResponse h) r fs).2 = fs := by
  rw [Fetch_of_file _ r fs C hp hk hf]
  refine ⟨?_, ?_, ?_, ?_, rfl⟩
  · unfold Fprintf
    exact Write_Code_of_some _ _ 200 (Write_Code_of_none _ _ (by simp))
  · simp only [Fprintf_Header, Write_Header, ResponseWriter.SetHeader, newResponse]
    rw [Header_Get_Set_ne _ _ _ _ (by decide), Header_Get_Set]
  · simp only [Fprintf_Header, Write_Header, ResponseWriter.SetHeader, newResponse]
    rw [Header_Get_Set]
  · simp only [Fprintf_Body, Write_Body, SetHeader_Body, newResponse_Body, List.nil_append]
    rw [doPrintf_Sprintf _ _ _ (by decide) (by decide) hN]

/-! ## Lemmas: what an answer 200 tells -/

/-- What a successful `Delete` leaves: on a response nothing was written to, status 200
means the entry was removed; its name was an entry name of the existing directory. -/
theorem Delete_ok (h : Header) (r : Request) (fs : FS)
    (hok : (Delete (newResponse h) r fs).1.Code = some 200) :
    (Delete (newResponse h) r fs).2 = fs.erase (muxVars r "name") ∧
    fs.present = true ∧ pathKind (muxVars r "name") = .entry := by
  cases hrm : osRemove fs (muxVars r "name") with
  | error e =>
    have h1 : (Delete (newResponse h) r fs).1.Code = some 500 := by
      simp only [Delete, hrm]
      exact httpError_Code _ _ _ (by simp)
    rw [h1] at hok
    simp at hok
  | ok fs1 =>
    have h2 : fs1 = fs.erase (muxVars r "name") ∧
        ∃ o, fs.find (muxVars r "name") = .ok o ∧ o ≠ some (.dir false) := by
      unfold osRemove at hrm
      split at hrm
      · simp at hrm
      · simp at hrm
      · simp at hrm
      · rename_i n hn hf
        refine ⟨by simpa using hrm.symm, some n, hf, ?_⟩
        intro hc
        exact hn (by simpa using hc)
    obtain ⟨h3, o, ho, hne⟩ := h2
    refine ⟨by simp [Delete, hrm, h3], ?_⟩
    unfold FS.find at ho
    cases hk : pathKind (muxVars r "name") <;> rw [hk] at ho <;> simp only at ho
    · simp at ho
    · cases hp : fs.present <;> simp [hp] at ho
      exact absurd ho.symm hne
    · cases hp : fs.present <;> simp [hp] at ho
    · cases hp : fs.present <;> simp [hp] at ho
    · cases hp : fs.present <;> simp [hp] at ho
      exact ⟨rfl, rfl⟩

/-- After a `Delete` that answered 200, `Fetch` of the same name answers 400. -/
theorem Fetch_after_Delete (h1 h2 : Header) (r1 r2 : Request) (fs : FS)
    (hok : (Delete (newResponse h1) r1 fs).1.Code = some 200)
    (hn : muxVars r2 "name" = muxVars r1 "name") :
    (Fetch (newResponse h2) r2 (Delete (newResponse h1) r1 fs).2).1.Code = some 400 ∧
    (Fetch (newResponse h2) r2 (Delete (newResponse h1) r1 fs).2).2 =
      (Delete (newResponse h1) r1 fs).2 := by
  obtain ⟨hd, hp, hk⟩ := Delete_ok h1 r1 fs hok
  rw [hd]
  have hf : (fs.erase (muxVars r1 "name")).lookup (muxVars r2 "name") = none := by
    rw [hn]; exact FS.lookup_erase _ _
  rw [Fetch_of_absent _ r2 _ (by simpa using hp) (by rw [hn]; exact hk) hf]
  exact ⟨httpError_Code _ _ _ rfl, rfl⟩

/-- `Fetch` of an entry name the existing directory does not hold answers 400 and leaves the
directory. -/
theorem Fetch_absent_entry (h : Header) (r : Request) (fs : FS)
    (hp : fs.present = true) (hk : pathKind (muxVars r "name") = .entry)
    (hf : fs.lookup (muxVars r "name") = none) :
    (Fetch (newResponse h) r fs).1.Code = some 400 ∧ (Fetch (newResponse h) r fs).2 = fs := by
  rw [Fetch_of_absent _ r fs hp hk hf]
  exact ⟨httpError_Code _ _ _ rfl, rfl⟩

/-- `Fetch` of a name whose lookup fails for another reason than a missing entry: the file
is taken to exist, reading it fails, 500. -/
theorem Fetch_of_refused (h : Header) (r : Request) (fs : FS) (e : Errno)
    (hf : fs.find (muxVars r "name") = .error e) (hne : e ≠ .ENOENT) :
    (Fetch (newResponse h) r fs).1.Code = some 500 ∧ (Fetch (newResponse h) r fs).2 = fs := by
  have hn : (GoError.path "stat" (imagePath (muxVars r "name")) e).IsNotExist = false := by
    cases e <;> simp [GoError.IsNotExist] at hne ⊢
  have hF : Fetch (newResponse h) r fs =
      (httpError (newResponse h)
        (GoError.path "open" (imagePath (muxVars r "name")) e).Error 500, fs) := by
    simp [Fetch, osStat, hf, hn, readAndSend, osReadFile]
  rw [hF]
  exact ⟨httpError_Code _ _ _ rfl, rfl⟩

/-- The three outcomes of `Update` on a request that carries a file part: 500 with the
directory untouched, the create path, or the write in place. -/
theorem Update_cases (w : ResponseWriter) (r : Request) (fs : FS) (N : String)
    (C : List UInt8) (hr : imagePart r = some { Filename := N, content := C }) :
    (Update w r fs = (httpError w "invalid argument" 500, fs)) ∨
    (fs.present = true ∧ pathKind N = .entry ∧ fs.lookup N = none ∧
      Update w r fs =
        (Fprintf w
          (Sprintf "File - " " - didn't exist, so the file was uploaded successfully" N),
          fs.insert N (.file C))) ∨
    (fs.present = true ∧ pathKind N = .entry ∧ ∃ O, fs.lookup N = some (.file O) ∧
      Update w r fs =
        (Fprintf w (Sprintf "File - " "  was updated successfully" N),
          fs.insert N (.file (C ++ O.drop C.length)))) := by
  cases hfind : fs.find N with
  | error e =>
    left
    by_cases he : e = .ENOENT
    · subst he
      rw [Update_of_imagePart w r fs _ hr]
      simp only [osStat, hfind, GoError.IsNotExist, if_true]
      apply createAndCopy_of_refused
      intro o ho
      rw [hfind] at ho
      simp at ho
    · exact Update_of_unopenable w r fs N C hr (Or.inr ⟨e, hfind, he⟩)
  | ok o =>
    cases o with
    | none =>
      obtain ⟨hp, hk, hl⟩ := FS.find_not_dir fs N none hfind (fun e he => by simp at he)
      exact Or.inr (Or.inl ⟨hp, hk, hl.symm, Update_of_absent w r fs N C hr hp hk hl.symm⟩)
    | some n =>
      cases n with
      | file O =>
        obtain ⟨hp, hk, hl⟩ := FS.find_not_dir fs N _ hfind (fun e he => by simp at he)
        exact Or.inr (Or.inr ⟨hp, hk, O, hl.symm,
          Update_of_file w r fs N C O hr hp hk hl.symm⟩)
      | dir e => exact Or.inl (Update_of_unopenable w r fs N C hr (Or.inl ⟨e, hfind⟩))

/-- What an `Update` that answered 200 leaves: the part written under its name, over the
start of what the name held. -/
theorem Update_ok (h : Header) (r : Request) (fs : FS) (N : String) (C : List UInt8)
    (hr : imagePart r = some { Filename := N, content := C })
    (hok : (Update (newResponse h) r fs).1.Code = some 200) :
    (Update (newResponse h) r fs =
        (Fprintf (newResponse h)
          (Sprintf "File - " " - didn't exist, so the file was uploaded successfully" N),
          fs.insert N (.file C)) ∧ fs.lookup N = none) ∨
    (∃ O, Update (newResponse h) r fs =
        (Fprintf (newResponse h) (Sprintf "File - " "  was updated successfully" N),
          fs.insert N (.file (C ++ O.drop C.length))) ∧ fs.lookup N = some (.file O)) := by
  rcases Update_cases (newResponse h) r fs N C hr with hu | ⟨_, _, hl, hu⟩ | ⟨_, _, O, hl, hu⟩
  · rw [hu, httpError_Code _ _ _ rfl] at hok
    simp at hok
  · exact Or.inl ⟨hu, hl⟩
  · exact Or.inr ⟨O, hu, hl⟩

theorem imagePart_eq_none (r : Request)
    (hv : maxFileSize < r.formBytes ∨ (∃ e, r.form = .error e) ∨
      (∃ form, r.form = .ok form ∧ ∀ fh, FormFile form "image" ≠ .ok fh)) :
    imagePart r = none := by
  unfold imagePart
  cases hp : ParseMultipartForm (MaxBytesReader r maxFileSize) maxFileSize with
  | error e => rfl
  | ok form =>
    have hform : r.form = .ok form ∧ ¬ maxFileSize < r.formBytes := by
      unfold ParseMultipartForm MaxBytesReader at hp
      simp only at hp
      split at hp
      · split at hp <;> simp at hp
      · rename_i hge
        refine ⟨hp, ?_⟩
        intro hlt
        apply hge
        cases hlim : r.limit with
        | none => simpa using hlt
        | some m => exact lt_of_le_of_lt (min_le_right _ _) hlt
    rcases hv with hv | ⟨e, he⟩ | ⟨form2, hf2, hno⟩
    · exact absurd hv hform.2
    · rw [he] at hform; simp at hform
    · rw [hf2] at hform
      have : form2 = form := by simpa using hform.1
      subst this
      cases hff : FormFile form2 "image" with
      | error e => simp [hff]
      | ok fh => exact absurd hff (hno fh)

/-! ## Lemmas: the JSON array reads back -/

theorem hexVal_hexDigit (n : Nat) (h : n < 16) : hexVal (hexDigit n) = some n := by
  interval_cases n <;> decide

theorem readString_escape_u00 (c : Char) (tail : List Char) (h : c.toNat < 256) :
    readString ('\\' :: 'u' :: '0' :: '0' :: hexDigit (c.toNat / 16) ::
      hexDigit (c.toNat % 16) :: tail) = consChar c (readString tail) := by
  have h1 : hexVal (hexDigit (c.toNat / 16)) = some (c.toNat / 16) :=
    hexVal_hexDigit _ (by omega)
  have h2 : hexVal (hexDigit (c.toNat % 16)) = some (c.toNat % 16) :=
    hexVal_hexDigit _ (by omega)
  have h0 : hexVal '0' = some 0 := by decide
  have h3 : ((0 * 16 + 0) * 16 + c.toNat / 16) * 16 + c.toNat % 16 = c.toNat := by omega
  have hq : ('\\' = '"') = False := by decide
  have hu : ('u' = 'u') = True := by decide
  simp only [readString, hq, if_false, if_true, hu, h0, h1, h2, h3, Char.ofNat_toNat]

theorem readString_backslash (e : Char) (tail : List Char) (x : Char) (hu : e ≠ 'u')
    (hx : unescape e = some x) :
    readString ('\\' :: e :: tail) = consChar x (readString tail) := by
  have hq : ('\\' = '"') = False := by decide
  rw [readString.eq_def]
  simp only [hq, if_false, if_true, hu, hx]

theorem readString_plain (c : Char) (tail : List Char) (hq : c ≠ '"') (hb : c ≠ '\\')
    (hn : ¬ c.toNat < 32) :
    readString (c :: tail) = consChar c (readString tail) := by
  rw [readString.eq_def]
  simp only [hq, hb, hn, if_false]

theorem readString_escape_u202 (d : Char) (v : Nat) (tail : List Char)
    (hd : hexVal d = some v) :
    readString ('\\' :: 'u' :: '2' :: '0' :: '2' :: d :: tail) =
      consChar (Char.ofNat (8224 + v)) (readString tail) := by
  have h0 : hexVal '0' = some 0 := by decide
  have h2 : hexVal '2' = some 2 := by decide
  have hq : ('\\' = '"') = False := by decide
  have hu : ('u' = 'u') = True := by decide
  have h3 : ((2 * 16 + 0) * 16 + 2) * 16 + v = 8224 + v := by omega
  simp only [readString, hq, if_false, if_true, hu, h0, h2, hd, h3]

theorem readString_jsonEscape (c : Char) (tail : List Char) :
    readString (jsonEscape c ++ tail) = consChar c (readString tail) := by
  unfold jsonEscape
  split_ifs with h1 h2 h3 h4 h5 h6 h7 h8
  · rcases h1 with h | h <;> subst h <;>
      exact readString_backslash _ tail _ (by decide) (by decide)
  · subst h2; exact readString_backslash _ tail _ (by decide) (by decide)
  · subst h3; exact readString_backslash _ tail _ (by decide) (by decide)
  · subst h4; exact readString_backslash _ tail _ (by decide) (by decide)
  · subst h5; exact readString_backslash _ tail _ (by decide) (by decide)
  · subst h6; exact readString_backslash _ tail _ (by decide) (by decide)
  · have hlt : c.toNat < 256 := by
      rcases h7 with h | h | h | h
      · omega
      · subst h; decide
      · subst h; decide
      · subst h; decide
    exact readString_escape_u00 c tail hlt
  · rcases h8 with h | h <;> subst h
    · exact readString_escape_u202 _ 8 tail (by decide)
    · exact readString_escape_u202 _ 9 tail (by decide)
  · exact readString_plain c tail (fun h => h1 (Or.inr h)) (fun h => h1 (Or.inl h))
      (fun h => h7 (Or.inl h))

theorem readString_escape_ufffd (tail : List Char) :
    readString ('\\' :: 'u' :: 'f' :: 'f' :: 'f' :: 'd' :: tail) =
      consChar (Char.ofNat 65533) (readString tail) := by
  have hf : hexVal 'f' = some 15 := by decide
  have hd : hexVal 'd' = some 13 := by decide
  have hq : ('\\' = '"') = False := by decide
  have hu : ('u' = 'u') = True := by decide
  have h3 : ((15 * 16 + 15) * 16 + 15) * 16 + 13 = 65533 := by decide
  simp only [readString, hq, if_false, if_true, hu, hf, hd, h3]

theorem readString_jsonUnit (u : NameUnit) (tail : List Char) :
    readString (jsonUnit u ++ tail) = consChar u.text (readString tail) := by
  cases u with
  | char c => exact readString_jsonEscape c tail
  | byte b => exact readString_escape_ufffd tail

theorem readString_flatMap (s : RawName) (rest : List Char) :
    readString (s.flatMap jsonUnit ++ '"' :: rest) = some (s.map NameUnit.text, rest) := by
  induction s with
  | nil => rw [List.flatMap_nil, List.nil_append, readString.eq_def]; simp
  | cons c s ih =>
    simp only [List.flatMap_cons, List.append_assoc]
    rw [readString_jsonUnit, ih]
    rfl

theorem skipSpace_of_not_space (c : Char) (cs : List Char)
    (h : ¬ (c = ' ' ∨ c = '\t' ∨ c = '\r' ∨ c = '\n')) : skipSpace (c :: cs) = c :: cs := by
  simp only [skipSpace, h, if_false]

theorem jsonElems_false_cons (s : RawName) (t : List RawName) (rest : List Char) :
    jsonElems false (s :: t) ++ rest =
      ',' :: '"' :: (s.flatMap jsonUnit ++ '"' :: (jsonElems false t ++ rest)) := by
  simp [jsonElems, jsonString]

theorem jsonElems_true_cons (s : RawName) (t : List RawName) (rest : List Char) :
    jsonElems true (s :: t) ++ rest =
      '"' :: (s.flatMap jsonUnit ++ '"' :: (jsonElems false t ++ rest)) := by
  simp [jsonElems, jsonString]

theorem length_le_jsonElems (l : List RawName) : l.length ≤ (jsonElems false l).length := by
  induction l with
  | nil => simp [jsonElems]
  | cons s t ih =>
    have h := jsonElems_false_cons s t []
    simp only [List.append_nil] at h
    rw [h]
    simp only [List.length_cons, List.length_append]
    omega

theorem readMore_jsonElems (l : List RawName) :
    ∀ (rest : List Char) (n : Nat), l.length < n →
      readMore n (jsonElems false l ++ ']' :: rest) = some (l.map rawText, rest) := by
  induction l with
  | nil =>
    intro rest n hn
    cases n with
    | zero => omega
    | succ n =>
      simp only [jsonElems, List.nil_append, readMore]
      rw [skipSpace_of_not_space _ _ (by decide)]
      rfl
  | cons s t ih =>
    intro rest n hn
    cases n with
    | zero => omega
    | succ n =>
      rw [jsonElems_false_cons]
      simp only [readMore]
      rw [skipSpace_of_not_space _ _ (by decide)]
      simp only
      rw [skipSpace_of_not_space _ _ (by decide)]
      simp only
      rw [readString_flatMap]
      simp only
      rw [ih rest n (by simpa using hn)]
      rfl

/-- The array the encoder writes reads back, with its trailing newline, as the list that
was encoded, each invalid byte of a name read as U+FFFD. -/
theorem jsonDecode_jsonArray (l : List RawName) :
    jsonDecode (jsonArray l ++ "\n") = some (l.map rawText) := by
  have htext : (jsonArray l ++ "\n").toList = '[' :: (jsonElems true l ++ ']' :: ['\n']) := by
    simp [jsonArray]
  have hlen : (jsonArray l ++ "\n").length = (jsonElems true l).length + 3 := by
    rw [String.length, ← String.toList, htext]
    simp
  unfold jsonDecode
  rw [htext, hlen, skipSpace_of_not_space _ _ (by decide)]
  cases l with
  | nil =>
    simp only [jsonElems, List.nil_append]
    rw [skipSpace_of_not_space _ _ (by decide)]
    simp +decide [skipSpace]
  | cons s t =>
    simp only
    rw [jsonElems_true_cons, skipSpace_of_not_space _ _ (by decide)]
    simp only
    rw [readString_flatMap]
    simp only
    have hfuel : t.length < (jsonElems true (s :: t)).length + 3 := by
      have h1 := length_le_jsonElems t
      have h2 := jsonElems_true_cons s t []
      simp only [List.append_nil] at h2
      rw [h2]
      simp only [List.length_cons, List.length_append]
      omega
    rw [readMore_jsonElems t ['\n'] _ hfuel]
    simp +decide [skipSpace, rawText]

theorem rawText_rawOfString (s : String) : rawText (rawOfString s) = s := by
  cases s with
  | mk cs =>
    simp [rawText, rawOfString, List.map_map, Function.comp_def, NameUnit.text]

theorem map_rawText_rawOfString (l : List String) : (l.map rawOfString).map rawText = l := by
  induction l with
  | nil => rfl
  | cons s t ih =>
    rw [List.map_cons, List.map_cons, rawText_rawOfString, ih]

/-- `Fetchlist` on an existing directory: 200 and the encoded names. -/
theorem Fetchlist_of_present (w : ResponseWriter) (r : Request) (fs : FS)
    (hp : fs.present = true) :
    Fetchlist w r fs =
      (w.Write (utf8 (jsonArray fs.names ++ "\n")), fs) := by
  simp [Fetchlist, osOpenDir, hp, Readdir, jsonEncode]

/-- `Fetchlist` without the directory: `os.Open` fails, 500. -/
theorem Fetchlist_of_missing (w : ResponseWriter) (r : Request) (fs : FS)
    (hp : fs.present = false) :
    Fetchlist w r fs =
      (httpError w (GoError.path "open" "./images/" .ENOENT).Error 500, fs) := by
  simp [Fetchlist, osOpenDir, hp]

theorem keys_count_of_entry (fs : FS) (n : String) (h : (fs.lookup n).isSome) :
    fs.entries.keys.count n = 1 :=
  List.count_eq_one_of_mem (AList.keys_nodup fs.entries)
    (AList.mem_keys.mp (AList.lookup_isSome.mp h))

theorem keys_count_of_absent (fs : FS) (n : String) (h : fs.lookup n = none) :
    fs.entries.keys.count n = 0 := by
  apply List.count_eq_zero_of_not_mem
  intro hm
  have := AList.lookup_isSome.mpr (AList.mem_keys.mpr hm)
  simp [FS.lookup] at h
  simp [h] at this

/-! ## Lemmas: the form reader -/

theorem filepathBase_ne_empty (path : String) : filepathBase path ≠ "" := by
  unfold filepathBase
  split
  · decide
  · simp only
    split
    · decide
    · rename_i h
      intro hc
      apply h
      have := congrArg String.data hc
      simpa using this

theorem filepathBase_no_separator (path : String) :
    '/' ∉ (filepathBase path).toList ∨ filepathBase path = "/" := by
  unfold filepathBase
  split
  · left; decide
  · simp only
    split
    · right; rfl
    · left
      intro hm
      have hm2 : '/' ∈ (List.takeWhile (fun c => c != '/')
          (List.dropWhile (fun c => c == '/') path.toList.reverse)).reverse := hm
      rw [List.mem_reverse] at hm2
      have := List.mem_takeWhile_imp hm2
      simp at this

theorem Part.FileName_eq_empty_iff (p : Part) : p.FileName = "" ↔ p.filename = "" := by
  unfold Part.FileName
  split
  · rename_i h; simp [h]
  · rename_i h
    simp [h, filepathBase_ne_empty]

theorem lookup_appendFile (key name : String) (fh : FileHeader) (form : FormFiles) :
    (List.lookup key (appendFile name fh form)).getD [] =
      if key = name then (List.lookup key form).getD [] ++ [fh]
      else (List.lookup key form).getD [] := by
  induction form with
  | nil =>
    by_cases hk : key = name
    · subst hk; simp [appendFile, List.lookup]
    · have : (key == name) = false := by simpa using hk
      simp [appendFile, List.lookup, hk, this]
  | cons e rest ih =>
    obtain ⟨k, fhs⟩ := e
    unfold appendFile
    by_cases hkn : k = name
    · subst hkn
      by_cases hk : key = k
      · subst hk; simp [List.lookup]
      · have : (key == k) = false := by simpa using hk
        simp [List.lookup, hk, this]
    · rw [if_neg hkn]
      by_cases hk : key = k
      · subst hk
        have hne : ¬ key = name := hkn
        simp [List.lookup, hne]
      · have : (key == k) = false := by simpa using hk
        simp only [List.lookup, this]
        exact ih

theorem lookup_readForm (key : String) (ps : List Part) :
    ∀ form : FormFiles,
      (List.lookup key (readForm form ps)).getD [] =
        (List.lookup key form).getD [] ++
          (ps.filter (fun p => p.name == key && p.name != "" && p.filename != "")).map
            (fun p => ({ Filename := p.FileName, content := p.content } : FileHeader)) := by
  induction ps with
  | nil => intro form; simp [readForm]
  | cons p ps ih =>
    intro form
    unfold readForm
    by_cases hn : p.name = ""
    · simp [hn, ih]
    · by_cases hf : p.filename = ""
      · have hF : p.FileName = "" := (Part.FileName_eq_empty_iff p).mpr hf
        simp [hn, hF, hf, ih]
      · have hF : ¬ p.FileName = "" := fun h => hf ((Part.FileName_eq_empty_iff p).mp h)
        rw [if_neg hn, if_neg hF, ih, lookup_appendFile]
        by_cases hk : key = p.name
        · subst hk
          have hfil : List.filter
                (fun q : Part => q.name == p.name && q.name != "" && q.filename != "") (p :: ps)
              = p :: List.filter
                (fun q : Part => q.name == p.name && q.name != "" && q.filename != "") ps := by
            rw [List.filter_cons]
            simp [hn, hf]
          rw [hfil]
          simp
        · have hk2 : ¬ p.name = key := fun h => hk h.symm
          have hfil : List.filter
                (fun q : Part => q.name == key && q.name != "" && q.filename != "") (p :: ps)
              = List.filter
                (fun q : Part => q.name == key && q.name != "" && q.filename != "") ps := by
            rw [List.filter_cons]
            simp [hk2]
          rw [if_neg hk, hfil]

theorem head?_filter_eq_find? {α : Type} (q : α → Bool) (l : List α) :
    (l.filter q).head? = l.find? q := by
  induction l with
  | nil => rfl
  | cons a l ih =>
    by_cases h : q a = true
    · simp [List.filter, List.find?, h]
    · have h2 : q a = false := by simpa using h
      simp [List.filter, List.find?, h2, ih]

/-- The file part the handlers get from a form read from the client's parts: the first part
sent under the field `image` with a file name, its file name reduced to the base name. -/
theorem FormFile_readForm (ps : List Part) (p : Part)
    (hp : ps.find? (fun p => p.name == "image" && p.filename != "") = some p) :
    FormFile (readForm [] ps) "image" =
      .ok { Filename := filepathBase p.filename, content := p.content } := by
  have h1 := lookup_readForm "image" ps []
  have hq : (fun p : Part => p.name == "image" && p.name != "" && p.filename != "")
      = (fun p : Part => p.name == "image" && p.filename != "") := by
    funext p
    by_cases hn : p.name = "image"
    · have h3 : (p.name != "") = true := by rw [hn]; decide
      rw [h3, Bool.and_true]
    · have h3 : (p.name == "image") = false := by simpa using hn
      simp [h3]
  rw [hq] at h1
  have h2 := head?_filter_eq_find? (fun p : Part => p.name == "image" && p.filename != "") ps
  rw [hp] at h2
  obtain ⟨ys, hys⟩ := List.head?_eq_some_iff.mp h2
  rw [hys] at h1
  have hpf : p.filename ≠ "" := by
    have := List.find?_some hp
    simp at this
    exact this.2
  have hF : p.FileName = filepathBase p.filename := by
    simp [Part.FileName, hpf]
  simp only [List.lookup, Option.getD_none, List.nil_append, List.map_cons, hF] at h1
  unfold FormFile
  cases hl : List.lookup "image" (readForm [] ps) with
  | none => rw [hl] at h1; simp at h1
  | some fhs =>
    rw [hl] at h1
    simp only [Option.getD_some] at h1
    rw [h1]

/-- The file part the handlers get when the form is read from the parts the client sent. -/
theorem imagePart_of_parts (r : Request) (parts : List Part) (F : String) (C : List UInt8)
    (hform : ParseMultipartForm (MaxBytesReader r maxFileSize) maxFileSize
      = .ok (readForm [] parts))
    (hpart : parts.find? (fun p => p.name == "image" && p.filename != "")
      = some { name := "image", filename := F, content := C }) :
    imagePart r = some { Filename := filepathBase F, content := C } := by
  unfold imagePart
  rw [hform]
  simp only
  rw [FormFile_readForm parts _ hpart]

/-- An entry name holds no path separator. -/
theorem pathKind_entry_no_separator (name : String) (hk : pathKind name = .entry) :
    '/' ∉ name.toList := by
  intro hm
  unfold pathKind at hk
  split at hk
  · simp at hk
  · split at hk
    · simp at hk
    · split at hk
      · simp at hk
      · rename_i hc
        exact hc (by simpa using hm)

/-! ## Lemmas: where a file can be written -/

/-- `Upload` of a part whose name is an entry name of the existing directory and names no
subdirectory: the file is written. -/
theorem Upload_of_writable (w : ResponseWriter) (r : Request) (fs : FS) (N : String)
    (C : List UInt8) (hr : imagePart r = some { Filename := N, content := C })
    (hp : fs.present = true) (hk : pathKind N = .entry)
    (hd : ∀ e, fs.lookup N ≠ some (.dir e)) :
    Upload w r fs =
      (Fprintf w (Sprintf "File - " "  was uploaded successfully" N),
        fs.insert N (.file C)) := by
  rw [Upload_of_imagePart w r fs _ hr]
  exact createAndCopy_of_writable w fs _ _ _ (FS.find_entry fs N hp hk) hd

/-- `Upload` of a part under any other name: 500, nothing written. -/
theorem Upload_of_not_writable (w : ResponseWriter) (r : Request) (fs : FS) (N : String)
    (C : List UInt8) (hr : imagePart r = some { Filename := N, content := C })
    (hn : ¬ (fs.present = true ∧ pathKind N = .entry ∧ ∀ e, fs.lookup N ≠ some (.dir e))) :
    Upload w r fs = (httpError w "invalid argument" 500, fs) := by
  rw [Upload_of_imagePart w r fs _ hr]
  rcases createAndCopy_cases w fs { Filename := N, content := C }
    "  was uploaded successfully" with hc | hc
  · exact hc
  · exact absurd hc.2 hn

/-- `Update` of a part under a name that is no entry name of an existing directory, or names
a subdirectory: 500, nothing written. -/
theorem Update_of_not_writable (w : ResponseWriter) (r : Request) (fs : FS) (N : String)
    (C : List UInt8) (hr : imagePart r = some { Filename := N, content := C })
    (hn : ¬ (fs.present = true ∧ pathKind N = .entry ∧ ∀ e, fs.lookup N ≠ some (.dir e))) :
    Update w r fs = (httpError w "invalid argument" 500, fs) := by
  rcases Update_cases w r fs N C hr with hu | ⟨hp, hk, hl, _⟩ | ⟨hp, hk, O, hl, _⟩
  · exact hu
  · exact absurd ⟨hp, hk, fun e he => by rw [hl] at he; simp at he⟩ hn
  · exact absurd ⟨hp, hk, fun e he => by rw [hl] at he; simp at he⟩ hn

/-- `Update` of a part whose name is an entry name of the existing directory and names no
subdirectory: the part is written over the start of what the name held. -/
theorem Update_of_writable (w : ResponseWriter) (r : Request) (fs : FS) (N : String)
    (C : List UInt8) (hr : imagePart r = some { Filename := N, content := C })
    (hp : fs.present = true) (hk : pathKind N = .entry)
    (hd : ∀ e, fs.lookup N ≠ some (.dir e)) :
    (fs.lookup N = none ∧ Update w r fs =
        (Fprintf w
          (Sprintf "File - " " - didn't exist, so the file was uploaded successfully" N),
          fs.insert N (.file C))) ∨
    (∃ O, fs.lookup N = some (.file O) ∧ Update w r fs =
        (Fprintf w (Sprintf "File - " "  was updated successfully" N),
          fs.insert N (.file (C ++ O.drop C.length)))) := by
  cases hl : fs.lookup N with
  | none => exact Or.inl ⟨rfl, Update_of_absent w r fs N C hr hp hk hl⟩
  | some n =>
    cases n with
    | file O => exact Or.inr ⟨O, rfl, Update_of_file w r fs N C O hr hp hk hl⟩
    | dir e => exact absurd hl (hd e)

/-! ## Lemmas: the listing -/

theorem rawBytes_rawOfString (s : String) : rawBytes (rawOfString s) = utf8 s := by
  simp [rawBytes, rawOfString, utf8, List.flatMap_map, NameUnit.bytes]

theorem map_rawBytes_rawOfString (l : List String) :
    (l.map rawOfString).map rawBytes = l.map utf8 := by
  induction l with
  | nil => rfl
  | cons s t ih =>
    rw [List.map_cons, List.map_cons, rawBytes_rawOfString, ih, List.map_cons]

/-- The names of a directory whose entries all have a name that is valid UTF-8. -/
theorem FS.names_of_no_stray (fs : FS) (hs : fs.stray = []) :
    fs.names = fs.entries.keys.map rawOfString := by
  simp [FS.names, hs]

/-- What `Fetchlist` answers on an existing directory: 200, and a text that reads back as
the names of the directory, each byte that begins no valid encoding read as U+FFFD. -/
theorem Fetchlist_reads_back (h : Header) (r : Request) (fs : FS) (hp : fs.present = true) :
    (Fetchlist (newResponse h) r fs).1.Code = some 200 ∧
    (Fetchlist (newResponse h) r fs).1.Body = utf8 (jsonArray fs.names ++ "\n") ∧
    jsonDecode (jsonArray fs.names ++ "\n") = some (fs.names.map rawText) ∧
    (Fetchlist (newResponse h) r fs).2 = fs := by
  rw [Fetchlist_of_present _ r fs hp]
  exact ⟨Write_Code_of_none _ _ rfl, by simp, jsonDecode_jsonArray _, rfl⟩

/-- What `Fetchlist` answers when the directory does not exist: 500. -/
theorem Fetchlist_missing (h : Header) (r : Request) (fs : FS) (hp : fs.present = false) :
    (Fetchlist (newResponse h) r fs).1.Code = some 500 ∧
    (Fetchlist (newResponse h) r fs).2 = fs := by
  rw [Fetchlist_of_missing _ r fs hp]
  exact ⟨httpError_Code _ _ _ rfl, rfl⟩

/-! ## Lemmas: bytes that are no text -/

theorem lead_byte_two (x : UInt8) : 192 ≤ (x &&& 0x1f ||| 0xc0).toNat := by
  cases x with
  | mk v => revert v; decide

theorem lead_byte_three (x : UInt8) : 192 ≤ (x &&& 0x0f ||| 0xe0).toNat := by
  cases x with
  | mk v => revert v; decide

theorem lead_byte_four (x : UInt8) : 192 ≤ (x &&& 0x07 ||| 0xf0).toNat := by
  cases x with
  | mk v => revert v; decide

/-- The UTF-8 encoding of a character is one byte below 128, or at least two bytes of which
the first is 192 or more. -/
theorem utf8EncodeChar_shape (c : Char) :
    (∃ b, String.utf8EncodeChar c = [b] ∧ b.toNat < 128) ∨
    (∃ b b2 rest, String.utf8EncodeChar c = b :: b2 :: rest ∧ 192 ≤ b.toNat) := by
  unfold String.utf8EncodeChar
  simp only
  split_ifs with h1 h2 h3
  · left
    refine ⟨_, rfl, ?_⟩
    have h : c.val.toNat ≤ 127 := h1
    show (c.val.toNat.toUInt8).toNat < 128
    simp only [Nat.toUInt8, UInt8.ofNat, UInt8.toNat, Fin.ofNat]
    show c.val.toNat % 256 < 128
    omega
  · right
    exact ⟨_, _, _, rfl, lead_byte_two _⟩
  · right
    exact ⟨_, _, _, rfl, lead_byte_three _⟩
  · right
    exact ⟨_, _, _, rfl, lead_byte_four _⟩

/-- A text whose bytes start with a byte below 192 starts with the character of that one
byte. -/
theorem flatMap_utf8EncodeChar_cons (c : Char) (cs : List Char) (b : UInt8) (bs : List UInt8)
    (h : (c :: cs).flatMap String.utf8EncodeChar = b :: bs) (hb : b.toNat < 192) :
    b.toNat < 128 ∧ cs.flatMap String.utf8EncodeChar = bs := by
  rw [List.flatMap_cons] at h
  rcases utf8EncodeChar_shape c with ⟨b1, he, hlt⟩ | ⟨b1, b2, rest, he, hge⟩
  · rw [he] at h
    simp only [List.singleton_append, List.cons.injEq] at h
    obtain ⟨h1, h2⟩ := h
    subst h1
    exact ⟨hlt, h2⟩
  · rw [he] at h
    simp only [List.cons_append, List.cons.injEq] at h
    obtain ⟨h1, _⟩ := h
    subst h1
    omega

/-- No text has the bytes 63 61 66 E9: the byte E9 announces two more bytes. -/
theorem utf8_ne_latin1 (s : String) : utf8 s ≠ [99, 97, 102, 233] := by
  intro h
  unfold utf8 at h
  generalize s.toList = cs at h
  cases cs with
  | nil => simp at h
  | cons c1 cs =>
    obtain ⟨_, h⟩ := flatMap_utf8EncodeChar_cons _ _ _ _ h (by decide)
    cases cs with
    | nil => simp at h
    | cons c2 cs =>
      obtain ⟨_, h⟩ := flatMap_utf8EncodeChar_cons _ _ _ _ h (by decide)
      cases cs with
      | nil => simp at h
      | cons c3 cs =>
        obtain ⟨_, h⟩ := flatMap_utf8EncodeChar_cons _ _ _ _ h (by decide)
        cases cs with
        | nil => simp at h
        | cons c4 cs =>
          rw [List.flatMap_cons] at h
          rcases utf8EncodeChar_shape c4 with ⟨b1, he, hlt⟩ | ⟨b1, b2, rest, he, hge⟩
          · rw [he] at h
            simp only [List.singleton_append, List.cons.injEq] at h
            obtain ⟨h1, _⟩ := h
            subst h1
            exact absurd hlt (by decide)
          · rw [he] at h
            simp at h

/-! ## The claims -/

/-- C1 as stated fails: after uploading the five bytes 1..5 as `1.jpg` into the empty
directory, `Fetch` of `1.jpg` answers 200 with a body that is not those five bytes. -/
theorem C1_body_not_identical :
    ¬ ∀ (fs : FS) (N : String) (C : List UInt8) (r r2 : Request) (h h2 : Header),
      imagePart r = some { Filename := N, content := C } → muxVars r2 "name" = N →
      (Upload (newResponse h) r fs).1.Code = some 200 →
      (Fetch (newResponse h2) r2 (Upload (newResponse h) r fs).2).1.Code = some 200 ∧
      (Fetch (newResponse h2) r2 (Upload (newResponse h) r fs).2).1.Body = C := by
  intro H
  have h := H ∅ "1.jpg" [1, 2, 3, 4, 5] (imageRequest [] 300 200 "1.jpg" [1, 2, 3, 4, 5])
    (nameRequest [] "1.jpg") [] [] (by decide) (by decide) (by decide)
  exact absurd h.2 (by decide)

/-- C1, amended: after an `Upload` of content `C` under name `N` that answers 200, `Fetch` of
`N` answers 200 and its body starts with the bytes of `C`, byte for byte: the body is `C`
followed by the confirmation text that `Fetch` prints after the bytes. -/
theorem C1_upload_then_fetch (fs : FS) (N : String) (C : List UInt8) (r r2 : Request)
    (h h2 : Header) (hr : imagePart r = some { Filename := N, content := C })
    (hn : muxVars r2 "name" = N)
    (hok : (Upload (newResponse h) r fs).1.Code = some 200) :
    (Fetch (newResponse h2) r2 (Upload (newResponse h) r fs).2).1.Code = some 200 ∧
    (Fetch (newResponse h2) r2 (Upload (newResponse h) r fs).2).1.Body =
      C ++ utf8 (doPrintf (Sprintf "File - " "  was sent successfully" N)) ∧
    (Fetch (newResponse h2) r2 (Upload (newResponse h) r fs).2).1.Body.take C.length = C := by
  obtain ⟨hp, hk⟩ := Upload_ok_name h r fs _ hr hok
  rw [Upload_ok h r fs _ hr hok]
  have hl : (fs.insert N (Node.file C)).lookup (muxVars r2 "name") = some (.file C) := by
    rw [hn]; exact FS.lookup_insert _ _ _
  rw [Fetch_of_file _ r2 _ C (by simpa using hp) (by rw [hn]; exact hk) hl]
  refine ⟨?_, ?_, ?_⟩
  · unfold Fprintf
    exact Write_Code_of_some _ _ 200 (Write_Code_of_none _ _ (by simp))
  · simp [hn]
  · simp

theorem C1_upload_then_fetch_witness :
    (Fetch (newResponse []) (nameRequest [] "1.jpg")
      (Upload (newResponse []) (imageRequest [] 300 200 "1.jpg" [1, 2, 3, 4, 5]) ∅).2).1.Code
        = some 200 ∧
    (Fetch (newResponse []) (nameRequest [] "1.jpg")
      (Upload (newResponse []) (imageRequest [] 300 200 "1.jpg" [1, 2, 3, 4, 5]) ∅).2).1.Body
        = [1, 2, 3, 4, 5] ++
          utf8 (doPrintf (Sprintf "File - " "  was sent successfully" "1.jpg")) ∧
    ((Fetch (newResponse []) (nameRequest [] "1.jpg")
      (Upload (newResponse []) (imageRequest [] 300 200 "1.jpg" [1, 2, 3, 4, 5]) ∅).2).1.Body).take
        [1, 2, 3, 4, 5].length = [1, 2, 3, 4, 5] :=
  C1_upload_then_fetch ∅ "1.jpg" [1, 2, 3, 4, 5] (imageRequest [] 300 200 "1.jpg" [1, 2, 3, 4, 5])
    (nameRequest [] "1.jpg") [] [] (by decide) (by decide) (by decide)

/-- C2: `authenticate` hands the request, unchanged, to the wrapped handler and answers with
that handler's result when the `API-Key` header equals the secret `"123456789"`, and only
then; on any other request, one without the header included, it answers 401, its result does
not depend on the wrapped handler, and the directory is left as it was. -/
theorem C2_authenticate_gate (next : Handler) (w : ResponseWriter) (r : Request) (fs : FS)
    (hw : w.Code = none) :
    apiKey = "123456789" ∧
    (r.Header.Get "API-Key" = apiKey → authenticate next w r fs = next w r fs) ∧
    ((∀ h : Handler, authenticate h w r fs = h w r fs) → r.Header.Get "API-Key" = apiKey) ∧
    (r.Header.Get "API-Key" ≠ apiKey →
      (authenticate next w r fs).1.Code = some 401 ∧
      (authenticate next w r fs).2 = fs ∧
      ∀ other : Handler, authenticate other w r fs = authenticate next w r fs) ∧
    (List.lookup "Api-Key" r.Header = none → r.Header.Get "API-Key" ≠ apiKey) := by
  refine ⟨rfl, authenticate_of_key next w r fs, ?_, ?_, ?_⟩
  · intro hall
    by_contra hk
    have h1 := hall (fun _ _ fs => (newResponse [], fs))
    rw [authenticate_of_not_key _ w r fs hk] at h1
    have h2 := congrArg (fun p => p.1.Code) h1
    simp only [newResponse_Code] at h2
    rw [httpError_Code w _ _ hw] at h2
    exact Option.noConfusion h2
  · intro hk
    rw [authenticate_of_not_key next w r fs hk]
    refine ⟨httpError_Code w _ _ hw, rfl, ?_⟩
    intro other
    exact authenticate_of_not_key other w r fs hk
  · intro hn
    have hc : CanonicalMIMEHeaderKey "API-Key" = "Api-Key" := by decide
    have hg : r.Header.Get "API-Key" = "" := by
      simp [Header.Get, hc, hn]
    rw [hg]
    decide

theorem C2_authenticate_gate_witness :
    (newResponse []).Code = none ∧
    (apiKey = "123456789" ∧
    ((nameRequest [("Api-Key", ["12345678"])] "1.jpg").Header.Get "API-Key" = apiKey →
      authenticate Fetchlist (newResponse [])
        (nameRequest [("Api-Key", ["12345678"])] "1.jpg") ∅ =
      Fetchlist (newResponse []) (nameRequest [("Api-Key", ["12345678"])] "1.jpg") ∅) ∧
    ((∀ h : Handler, authenticate h (newResponse [])
        (nameRequest [("Api-Key", ["12345678"])] "1.jpg") ∅ =
        h (newResponse []) (nameRequest [("Api-Key", ["12345678"])] "1.jpg") ∅) →
      (nameRequest [("Api-Key", ["12345678"])] "1.jpg").Header.Get "API-Key" = apiKey) ∧
    ((nameRequest [("Api-Key", ["12345678"])] "1.jpg").Header.Get "API-Key" ≠ apiKey →
      (authenticate Fetchlist (newResponse [])
        (nameRequest [("Api-Key", ["12345678"])] "1.jpg") ∅).1.Code = some 401 ∧
      (authenticate Fetchlist (newResponse [])
        (nameRequest [("Api-Key", ["12345678"])] "1.jpg") ∅).2 = ∅ ∧
      ∀ other : Handler, authenticate other (newResponse [])
        (nameRequest [("Api-Key", ["12345678"])] "1.jpg") ∅ =
        authenticate Fetchlist (newResponse [])
          (nameRequest [("Api-Key", ["12345678"])] "1.jpg") ∅) ∧
    (List.lookup "Api-Key" (nameRequest [("Api-Key", ["12345678"])] "1.jpg").Header = none →
      (nameRequest [("Api-Key", ["12345678"])] "1.jpg").Header.Get "API-Key" ≠ apiKey)) :=
  ⟨rfl, C2_authenticate_gate Fetchlist (newResponse [])
    (nameRequest [("Api-Key", ["12345678"])] "1.jpg") ∅ rfl⟩

/-- C3 at the file name `50%.jpg`: the five old bytes 1..5 are overwritten in place by the
two new bytes (the store holds 9, 9, 3, 4, 5 and the answer is 200, as C3 says), but the
body is not `File - 50%.jpg  was updated successfully`: the name was read as a format. -/
theorem C3_update_percent_name :
    (Update (newResponse []) (imageRequest [] 300 200 "50%.jpg" [9, 9])
      ((∅ : FS).insert "50%.jpg" (.file [1, 2, 3, 4, 5]))).1.Code = some 200 ∧
    (Update (newResponse []) (imageRequest [] 300 200 "50%.jpg" [9, 9])
      ((∅ : FS).insert "50%.jpg" (.file [1, 2, 3, 4, 5]))).2.lookup "50%.jpg"
        = some (.file [9, 9, 3, 4, 5]) ∧
    (Update (newResponse []) (imageRequest [] 300 200 "50%.jpg" [9, 9])
      ((∅ : FS).insert "50%.jpg" (.file [1, 2, 3, 4, 5]))).1.Body
        = utf8 "File - 50%!j(MISSING)pg  was updated successfully" ∧
    (Update (newResponse []) (imageRequest [] 300 200 "50%.jpg" [9, 9])
      ((∅ : FS).insert "50%.jpg" (.file [1, 2, 3, 4, 5]))).1.Body
        ≠ utf8 "File - 50%.jpg  was updated successfully" := by
  decide

/-- C4 at the file name `50%.jpg`: `Upload` answers 200 and the store holds exactly the
uploaded bytes, as C4 says, but the body is not `File - 50%.jpg  was uploaded
successfully`: the name was read as a format. -/
theorem C4_upload_percent_name :
    (Upload (newResponse []) (imageRequest [] 300 200 "50%.jpg" [9, 9])
      ((∅ : FS).insert "50%.jpg" (.file [1, 2, 3, 4, 5]))).1.Code = some 200 ∧
    (Upload (newResponse []) (imageRequest [] 300 200 "50%.jpg" [9, 9])
      ((∅ : FS).insert "50%.jpg" (.file [1, 2, 3, 4, 5]))).2.lookup "50%.jpg"
        = some (.file [9, 9]) ∧
    (Upload (newResponse []) (imageRequest [] 300 200 "50%.jpg" [9, 9])
      ((∅ : FS).insert "50%.jpg" (.file [1, 2, 3, 4, 5]))).1.Body
        = utf8 "File - 50%!j(MISSING)pg  was uploaded successfully" ∧
    (Upload (newResponse []) (imageRequest [] 300 200 "50%.jpg" [9, 9])
      ((∅ : FS).insert "50%.jpg" (.file [1, 2, 3, 4, 5]))).1.Body
        ≠ utf8 "File - 50%.jpg  was uploaded successfully" := by
  decide

/-- C5 at the file name `50%.jpg`, absent from the store: `Update` leaves the store `Upload`
would leave and answers 200, as C5 says, but the body is not `File - 50%.jpg - didn't
exist, so the file was uploaded successfully`: the name was read as a format. -/
theorem C5_update_create_percent_name :
    (Update (newResponse []) (imageRequest [] 300 200 "50%.jpg" [9, 9]) ∅).2
      = (Upload (newResponse []) (imageRequest [] 300 200 "50%.jpg" [9, 9]) ∅).2 ∧
    (Update (newResponse []) (imageRequest [] 300 200 "50%.jpg" [9, 9]) ∅).2.lookup "50%.jpg"
      = some (.file [9, 9]) ∧
    (Update (newResponse []) (imageRequest [] 300 200 "50%.jpg" [9, 9]) ∅).1.Code = some 200 ∧
    (Update (newResponse []) (imageRequest [] 300 200 "50%.jpg" [9, 9]) ∅).1.Body
      = utf8 "File - 50%!j(MISSING)pg - didn't exist, so the file was uploaded successfully" ∧
    (Update (newResponse []) (imageRequest [] 300 200 "50%.jpg" [9, 9]) ∅).1.Body
      ≠ utf8 "File - 50%.jpg - didn't exist, so the file was uploaded successfully" := by
  refine ⟨rfl, ?_⟩
  decide

/-- C6 at the file name `50%.jpg`, present in the store: `Delete` answers 200 and removes
the file, as C6 says, but the body is not `File - 50%.jpg  was deleted successfully`: the
name was read as a format. -/
theorem C6_delete_percent_name :
    (Delete (newResponse []) (nameRequest [] "50%.jpg")
      ((∅ : FS).insert "50%.jpg" (.file [1, 2, 3, 4, 5]))).1.Code = some 200 ∧
    (Delete (newResponse []) (nameRequest [] "50%.jpg")
      ((∅ : FS).insert "50%.jpg" (.file [1, 2, 3, 4, 5]))).2.lookup "50%.jpg" = none ∧
    (Delete (newResponse []) (nameRequest [] "50%.jpg")
      ((∅ : FS).insert "50%.jpg" (.file [1, 2, 3, 4, 5]))).1.Body
        = utf8 "File - 50%!j(MISSING)pg  was deleted successfully" ∧
    (Delete (newResponse []) (nameRequest [] "50%.jpg")
      ((∅ : FS).insert "50%.jpg" (.file [1, 2, 3, 4, 5]))).1.Body
        ≠ utf8 "File - 50%.jpg  was deleted successfully" := by
  decide

set_option maxRecDepth 8000 in
/-- C7 at a name of 256 bytes, on the empty directory: the store holds no entry of that
name, and no directory can, yet `Fetch` answers 500, not 400.  `os.Stat` fails with
`ENAMETOOLONG`, which is not `ErrNotExist`, so the handler takes the branch its comment
labels "file exists", and the read that follows fails. -/
theorem C7_fetch_long_name :
    (∅ : FS).lookup (String.mk (List.replicate 256 'a')) = none ∧
    (Fetch (newResponse []) (nameRequest [] (String.mk (List.replicate 256 'a'))) ∅).1.Code
      = some 500 ∧
    (Fetch (newResponse []) (nameRequest [] (String.mk (List.replicate 256 'a'))) ∅).1.Code
      ≠ some 400 ∧
    (Fetch (newResponse []) (nameRequest [] (String.mk (List.replicate 256 'a'))) ∅).1.Body
      = utf8 ("open ./images/" ++ String.mk (List.replicate 256 'a')
          ++ ": file name too long\n") := by
  refine ⟨by decide, by decide, by decide, by decide⟩

/-- C8 as stated fails, in both halves.  Not every state is answered 200: when the directory
`./images/` does not exist, `os.Open` fails and `Fetchlist` answers 500.  And where the
directory exists the array does not always hold the names: in a directory whose one entry
has the name `caf` followed by the byte E9, which is not valid UTF-8, `Fetchlist` answers
200 with the text `["caf\ufffd"]`, which reads back as `caf` followed by U+FFFD, six
bytes that are not the four of the name; no array of strings holds that name. -/
theorem C8_listing_not_the_names :
    (¬ ∀ (fs : FS) (r : Request) (h : Header),
        (Fetchlist (newResponse h) r fs).1.Code = some 200 ∧
        (∃ text names, (Fetchlist (newResponse h) r fs).1.Body = utf8 text ∧
          jsonDecode text = some names ∧
          (names.map utf8).Perm (fs.names.map rawBytes)) ∧
        (Fetchlist (newResponse h) r fs).2 = fs) ∧
    (¬ ∀ (fs : FS) (r : Request) (h : Header), fs.present = true →
        ∃ text names, (Fetchlist (newResponse h) r fs).1.Body = utf8 text ∧
          jsonDecode text = some names ∧
          (names.map utf8).Perm (fs.names.map rawBytes)) ∧
    (Fetchlist (newResponse []) (nameRequest [] "")
      { present := false, entries := ∅, stray := [] }).1.Code = some 500 ∧
    (FS.names
      { present := true, entries := ∅,
        stray := [[.char 'c', .char 'a', .char 'f', .byte 233]] }).map rawBytes
      = [[99, 97, 102, 233]] ∧
    (Fetchlist (newResponse []) (nameRequest [] "")
      { present := true, entries := ∅,
        stray := [[.char 'c', .char 'a', .char 'f', .byte 233]] }).1.Code = some 200 ∧
    (Fetchlist (newResponse []) (nameRequest [] "")
      { present := true, entries := ∅,
        stray := [[.char 'c', .char 'a', .char 'f', .byte 233]] }).1.Body
      = utf8 "[\"caf\\ufffd\"]\n" ∧
    jsonDecode "[\"caf\\ufffd\"]\n" = some ["caf\uFFFD"] ∧
    ["caf\uFFFD"].map utf8 = [[99, 97, 102, 239, 191, 189]] := by
  refine ⟨?_, ?_, by decide, by decide, by decide, by decide, by decide, by decide⟩
  · intro H
    have h1 := (H { present := false, entries := ∅, stray := [] } (nameRequest [] "") []).1
    exact absurd h1 (by decide)
  · intro H
    obtain ⟨text, names, _, _, hperm⟩ :=
      H { present := true, entries := ∅,
          stray := [[.char 'c', .char 'a', .char 'f', .byte 233]] } (nameRequest [] "") [] rfl
    have hn : (FS.names
        { present := true, entries := ∅,
          stray := [[.char 'c', .char 'a', .char 'f', .byte 233]] }).map rawBytes
        = [[99, 97, 102, 233]] := by decide
    rw [hn] at hperm
    have h2 := List.Perm.eq_singleton hperm
    cases names with
    | nil => simp at h2
    | cons s t =>
      simp only [List.map_cons, List.cons.injEq] at h2
      exact utf8_ne_latin1 s h2.1

/-- C8, amended: when the directory `./images/` exists and every entry name in it is valid
UTF-8, `Fetchlist` answers 200 with a body that reads back, as a JSON array of strings, as a
list holding the name of every entry exactly once and no other name, and it leaves the
store as it was, so that a further call answers the same; after an `Upload` under `N` that
answered 200, the list `Fetchlist` answers with holds `N` exactly once, whatever the store
held before. -/
theorem C8_fetchlist_membership (fs : FS) (r r1 r2 : Request) (h h1 h2 : Header) (N : String)
    (C : List UInt8) (hp : fs.present = true) (hs : fs.stray = []) :
    ((Fetchlist (newResponse h) r fs).1.Code = some 200 ∧
      (∃ text names, (Fetchlist (newResponse h) r fs).1.Body = utf8 text ∧
        jsonDecode text = some names ∧ names = fs.entries.keys ∧
        names.map utf8 = fs.names.map rawBytes) ∧
      (∀ n, (fs.lookup n).isSome → fs.entries.keys.count n = 1) ∧
      (∀ n, fs.lookup n = none → fs.entries.keys.count n = 0) ∧
      (Fetchlist (newResponse h) r fs).2 = fs ∧
      Fetchlist (newResponse h2) r2 (Fetchlist (newResponse h) r fs).2 =
        Fetchlist (newResponse h2) r2 fs) ∧
    (imagePart r1 = some { Filename := N, content := C } →
      (Upload (newResponse h1) r1 fs).1.Code = some 200 →
      (Fetchlist (newResponse h2) r2 (Upload (newResponse h1) r1 fs).2).1.Code = some 200 ∧
      (∃ text names, (Fetchlist (newResponse h2) r2 (Upload (newResponse h1) r1 fs).2).1.Body
          = utf8 text ∧
        jsonDecode text = some names ∧ names.count N = 1)) := by
  have key : ∀ (fs : FS) (r : Request) (h : Header), fs.present = true → fs.stray = [] →
      (Fetchlist (newResponse h) r fs).1.Code = some 200 ∧
      (∃ text names, (Fetchlist (newResponse h) r fs).1.Body = utf8 text ∧
        jsonDecode text = some names ∧ names = fs.entries.keys ∧
        names.map utf8 = fs.names.map rawBytes) := by
    intro fs r h hp hs
    obtain ⟨hc, hb, hd, _⟩ := Fetchlist_reads_back h r fs hp
    refine ⟨hc, _, _, hb, hd, ?_, ?_⟩
    · rw [FS.names_of_no_stray fs hs, map_rawText_rawOfString]
    · rw [FS.names_of_no_stray fs hs, map_rawText_rawOfString, map_rawBytes_rawOfString]
  refine ⟨⟨(key fs r h hp hs).1, (key fs r h hp hs).2, keys_count_of_entry fs,
    keys_count_of_absent fs, (Fetchlist_reads_back h r fs hp).2.2.2, ?_⟩, ?_⟩
  · rw [(Fetchlist_reads_back h r fs hp).2.2.2]
  · intro hr hok
    have hu := Upload_ok h1 r1 fs _ hr hok
    have hp2 : (Upload (newResponse h1) r1 fs).2.present = true := by rw [hu]; simpa using hp
    have hs2 : (Upload (newResponse h1) r1 fs).2.stray = [] := by rw [hu]; simpa using hs
    obtain ⟨hc, text, names, hb, hd, hn, _⟩ := key _ r2 h2 hp2 hs2
    refine ⟨hc, text, names, hb, hd, ?_⟩
    rw [hn]
    apply keys_count_of_entry
    rw [hu]
    simp

/-- C8 on the directory that holds `1.jpg`, before and after a further upload under
`1.jpg`. -/
theorem C8_fetchlist_membership_witness :
    (((∅ : FS).insert "1.jpg" (.file [7])).present = true ∧
      ((∅ : FS).insert "1.jpg" (.file [7])).stray = []) ∧
    (imagePart (imageRequest [] 300 200 "1.jpg" [1, 2, 3])
      = some { Filename := "1.jpg", content := [1, 2, 3] } ∧
    (Upload (newResponse []) (imageRequest [] 300 200 "1.jpg" [1, 2, 3])
      ((∅ : FS).insert "1.jpg" (.file [7]))).1.Code = some 200) ∧
    (Fetchlist (newResponse []) (nameRequest [] "") ((∅ : FS).insert "1.jpg"
      (.file [7]))).1.Code = some 200 ∧
    (∃ text names, (Fetchlist (newResponse []) (nameRequest [] "") ((∅ : FS).insert "1.jpg"
        (.file [7]))).1.Body = utf8 text ∧
      jsonDecode text = some names ∧
      names = ((∅ : FS).insert "1.jpg" (.file [7])).entries.keys ∧
      names.map utf8 = ((∅ : FS).insert "1.jpg" (.file [7])).names.map rawBytes) ∧
    ((∅ : FS).insert "1.jpg" (.file [7])).entries.keys.count "1.jpg" = 1 ∧
    ((∅ : FS).insert "1.jpg" (.file [7])).entries.keys.count "2.jpg" = 0 ∧
    (Fetchlist (newResponse []) (nameRequest [] "") ((∅ : FS).insert "1.jpg"
      (.file [7]))).2 = (∅ : FS).insert "1.jpg" (.file [7]) ∧
    Fetchlist (newResponse []) (nameRequest [] "")
        (Fetchlist (newResponse []) (nameRequest [] "") ((∅ : FS).insert "1.jpg"
          (.file [7]))).2 =
      Fetchlist (newResponse []) (nameRequest [] "") ((∅ : FS).insert "1.jpg"
        (.file [7])) ∧
    (Fetchlist (newResponse []) (nameRequest [] "")
      (Upload (newResponse []) (imageRequest [] 300 200 "1.jpg" [1, 2, 3])
        ((∅ : FS).insert "1.jpg" (.file [7]))).2).1.Code = some 200 ∧
    (∃ text names, (Fetchlist (newResponse []) (nameRequest [] "")
        (Upload (newResponse []) (imageRequest [] 300 200 "1.jpg" [1, 2, 3])
          ((∅ : FS).insert "1.jpg" (.file [7]))).2).1.Body = utf8 text ∧
      jsonDecode text = some names ∧ names.count "1.jpg" = 1) :=
  have t := C8_fetchlist_membership ((∅ : FS).insert "1.jpg" (.file [7])) (nameRequest [] "")
    (imageRequest [] 300 200 "1.jpg" [1, 2, 3]) (nameRequest [] "") [] [] [] "1.jpg"
    [1, 2, 3] rfl rfl
  ⟨⟨rfl, rfl⟩, ⟨by decide, by decide⟩, t.1.1, t.1.2.1, t.1.2.2.1 "1.jpg" (by decide),
    t.1.2.2.2.1 "2.jpg" (by decide), t.1.2.2.2.2.1, t.1.2.2.2.2.2,
    (t.2 (by decide) (by decide)).1, (t.2 (by decide) (by decide)).2⟩

/-- C9 as stated fails: `Upload` accepts a request whose body is one byte longer than 10 MiB
when the form in it ends within the first 200 bytes: it answers 200 and stores the file. -/
theorem C9_long_body_accepted :
    ¬ ∀ (fs : FS) (r : Request) (h : Header),
      (maxFileSize < r.bodyLen ∨ (∃ e, r.form = .error e) ∨
        (∃ form, r.form = .ok form ∧ ∀ fh, FormFile form "image" ≠ .ok fh)) →
      ((Upload (newResponse h) r fs).1.Code = some 400 ∧ (Upload (newResponse h) r fs).2 = fs) ∧
      ((Update (newResponse h) r fs).1.Code = some 400 ∧
        (Update (newResponse h) r fs).2 = fs) := by
  intro H
  have h := H ∅ (imageRequest [] 10485761 200 "1.jpg" [1, 2, 3]) [] (Or.inl (by decide))
  exact absurd h.1.1 (by decide)

/-- C9, amended: a request to `Upload` or `Update` for which reading the multipart form takes
more than 10 MiB (`maxFileSize` = 10485760 bytes) of the body, whose form fails to parse,
or whose form has no file part under the field `image`, is answered 400 and the store is
left as it was. -/
theorem C9_validation_failures (fs : FS) (r : Request) (h : Header)
    (hv : maxFileSize < r.formBytes ∨ (∃ e, r.form = .error e) ∨
      (∃ form, r.form = .ok form ∧ ∀ fh, FormFile form "image" ≠ .ok fh)) :
    maxFileSize = 10 * 2 ^ 20 ∧ maxFileSize = 10485760 ∧
    ((Upload (newResponse h) r fs).1.Code = some 400 ∧ (Upload (newResponse h) r fs).2 = fs) ∧
    ((Update (newResponse h) r fs).1.Code = some 400 ∧ (Update (newResponse h) r fs).2 = fs) := by
  have hn := imagePart_eq_none r hv
  obtain ⟨e1, h1⟩ := Upload_of_no_imagePart (newResponse h) r fs hn
  obtain ⟨e2, h2⟩ := Update_of_no_imagePart (newResponse h) r fs hn
  rw [h1, h2]
  exact ⟨by decide, by decide, ⟨httpError_Code _ _ _ rfl, rfl⟩, ⟨httpError_Code _ _ _ rfl, rfl⟩⟩

theorem C9_validation_failures_witness :
    (maxFileSize < (imageRequest [] 10485900 10485800 "1.jpg" [1, 2, 3]).formBytes ∨
      (∃ e, (imageRequest [] 10485900 10485800 "1.jpg" [1, 2, 3]).form = .error e) ∨
      (∃ form, (imageRequest [] 10485900 10485800 "1.jpg" [1, 2, 3]).form = .ok form ∧
        ∀ fh, FormFile form "image" ≠ .ok fh)) ∧
    (maxFileSize = 10 * 2 ^ 20 ∧ maxFileSize = 10485760 ∧
    ((Upload (newResponse []) (imageRequest [] 10485900 10485800 "1.jpg" [1, 2, 3]) ∅).1.Code
        = some 400 ∧
      (Upload (newResponse []) (imageRequest [] 10485900 10485800 "1.jpg" [1, 2, 3]) ∅).2
        = ∅) ∧
    ((Update (newResponse []) (imageRequest [] 10485900 10485800 "1.jpg" [1, 2, 3]) ∅).1.Code
        = some 400 ∧
      (Update (newResponse []) (imageRequest [] 10485900 10485800 "1.jpg" [1, 2, 3]) ∅).2
        = ∅)) :=
  ⟨Or.inl (by decide),
    C9_validation_failures ∅ (imageRequest [] 10485900 10485800 "1.jpg" [1, 2, 3]) []
      (Or.inl (by decide))⟩

/-- C10 at the file name `50%.jpg`, holding the bytes 1..5: `Fetch` answers 200 with both
headers and leaves the store, as C10 says, but the text after the five bytes is not
`File - 50%.jpg  was sent successfully`: the name was read as a format. -/
theorem C10_fetch_percent_name :
    (Fetch (newResponse []) (nameRequest [] "50%.jpg")
      ((∅ : FS).insert "50%.jpg" (.file [1, 2, 3, 4, 5]))).1.Code = some 200 ∧
    (Fetch (newResponse []) (nameRequest [] "50%.jpg")
      ((∅ : FS).insert "50%.jpg" (.file [1, 2, 3, 4, 5]))).1.Header.Get "Content-Type"
        = "image/jpg" ∧
    (Fetch (newResponse []) (nameRequest [] "50%.jpg")
      ((∅ : FS).insert "50%.jpg" (.file [1, 2, 3, 4, 5]))).1.Header.Get "Content-Disposition"
        = "attachment;filename=\"50%.jpg\"" ∧
    (Fetch (newResponse []) (nameRequest [] "50%.jpg")
      ((∅ : FS).insert "50%.jpg" (.file [1, 2, 3, 4, 5]))).2
        = (∅ : FS).insert "50%.jpg" (.file [1, 2, 3, 4, 5]) ∧
    (Fetch (newResponse []) (nameRequest [] "50%.jpg")
      ((∅ : FS).insert "50%.jpg" (.file [1, 2, 3, 4, 5]))).1.Body
        = [1, 2, 3, 4, 5] ++ utf8 "File - 50%!j(MISSING)pg  was sent successfully" ∧
    (Fetch (newResponse []) (nameRequest [] "50%.jpg")
      ((∅ : FS).insert "50%.jpg" (.file [1, 2, 3, 4, 5]))).1.Body
        ≠ [1, 2, 3, 4, 5] ++ utf8 "File - 50%.jpg  was sent successfully" := by
  refine ⟨by decide, by decide, by decide, rfl, by decide, by decide⟩

/-- C11 as stated fails: on the request of `TestUpload`, whose file part carries the file
name `./test_images/1.jpg`, `Upload` answers 200 and neither stores the bytes under that
name nor names it in the confirmation: the body is `File - 1.jpg  was uploaded
successfully`, as the test expects. -/
theorem C11_name_not_verbatim :
    ¬ ∀ (fs : FS) (h : Header) (F : String) (C : List UInt8),
      F ≠ "" →
      ((Upload (newResponse h) (multipartRequest h 300 200 [⟨"image", F, C⟩]) fs).1.Code
          = some 200 →
        (Upload (newResponse h) (multipartRequest h 300 200 [⟨"image", F, C⟩]) fs).2.lookup F
          = some (.file C) ∧
        (Upload (newResponse h) (multipartRequest h 300 200 [⟨"image", F, C⟩]) fs).1.Body
          = utf8 ("File - " ++ F ++ "  was uploaded successfully")) ∧
      ((Update (newResponse h) (multipartRequest h 300 200 [⟨"image", F, C⟩]) fs).1.Code
          = some 200 →
        (∃ data, (Update (newResponse h) (multipartRequest h 300 200 [⟨"image", F, C⟩])
          fs).2.lookup F = some (.file data))) := by
  intro H
  have h := (H ∅ [] "./test_images/1.jpg" [1, 2, 3] (by decide)).1 (by decide)
  have hbody : (Upload (newResponse [])
      (multipartRequest [] 300 200 [⟨"image", "./test_images/1.jpg", [1, 2, 3]⟩]) ∅).1.Body
        = utf8 "File - 1.jpg  was uploaded successfully" := by decide
  have h2 := h.2
  rw [hbody] at h2
  exact absurd h2 (by decide)

/-- C11, amended: the blob name is the base name of the client's file name.  When the form
of a request is read from the parts the client sent and its first file part under `image`
carries the file name `F`, `Upload` and `Update` work on `filepath.Base(F)`, the last path
element of `F`, which holds no path separator or is `/` alone.  When the directory exists,
`filepath.Base(F)` is a name the file system takes as an entry of it (no NUL byte, at most
255 bytes, none of `.`, `..` and `/`) and names no subdirectory, both handlers answer 200,
the store is the old one with the file written under `filepath.Base(F)` (by `Update`: bytes
that start with the part), and the confirmation message is built from `filepath.Base(F)`,
which it shows as it is when the name holds no percent sign.  Otherwise both handlers
answer 500 and leave the store as it was. -/
theorem C11_blob_name_is_base_name (fs : FS) (h : Header) (r : Request) (parts : List Part)
    (F : String) (C : List UInt8)
    (hform : ParseMultipartForm (MaxBytesReader r maxFileSize) maxFileSize
      = .ok (readForm [] parts))
    (hpart : parts.find? (fun p => p.name == "image" && p.filename != "")
      = some { name := "image", filename := F, content := C }) :
    imagePart r = some { Filename := filepathBase F, content := C } ∧
    ('/' ∉ (filepathBase F).toList ∨ filepathBase F = "/") ∧
    ((fs.present = true ∧ pathKind (filepathBase F) = .entry ∧
        ∀ e, fs.lookup (filepathBase F) ≠ some (.dir e)) →
      '/' ∉ (filepathBase F).toList ∧
      ((Upload (newResponse h) r fs).1.Code = some 200 ∧
        (Upload (newResponse h) r fs).2 = fs.insert (filepathBase F) (.file C) ∧
        (Upload (newResponse h) r fs).1.Body =
          utf8 (doPrintf (Sprintf "File - " "  was uploaded successfully" (filepathBase F))) ∧
        ('%' ∉ (filepathBase F).toList →
          (Upload (newResponse h) r fs).1.Body =
            utf8 ("File - " ++ filepathBase F ++ "  was uploaded successfully"))) ∧
      ((Update (newResponse h) r fs).1.Code = some 200 ∧
        (∃ data, (Update (newResponse h) r fs).2 = fs.insert (filepathBase F) (.file data) ∧
          data.take C.length = C) ∧
        ('%' ∉ (filepathBase F).toList →
          (Update (newResponse h) r fs).1.Body =
            utf8 ("File - " ++ filepathBase F ++ "  was updated successfully") ∨
          (Update (newResponse h) r fs).1.Body =
            utf8 ("File - " ++ filepathBase F ++
              " - didn't exist, so the file was uploaded successfully")))) ∧
    (¬ (fs.present = true ∧ pathKind (filepathBase F) = .entry ∧
        ∀ e, fs.lookup (filepathBase F) ≠ some (.dir e)) →
      ((Upload (newResponse h) r fs).1.Code = some 500 ∧
        (Upload (newResponse h) r fs).2 = fs) ∧
      ((Update (newResponse h) r fs).1.Code = some 500 ∧
        (Update (newResponse h) r fs).2 = fs)) := by
  have hr := imagePart_of_parts r parts F C hform hpart
  refine ⟨hr, filepathBase_no_separator F, ?_, ?_⟩
  · rintro ⟨hp, hk, hd⟩
    refine ⟨pathKind_entry_no_separator _ hk, ?_, ?_⟩
    · rw [Upload_of_writable _ r fs _ C hr hp hk hd]
      refine ⟨Fprintf_Code _ _ rfl, rfl, by simp, ?_⟩
      intro hN
      simp only [Fprintf_Body, newResponse_Body, List.nil_append]
      rw [doPrintf_Sprintf _ _ _ (by decide) (by decide) hN]
    · rcases Update_of_writable (newResponse h) r fs _ C hr hp hk hd with
        ⟨_, hu⟩ | ⟨O, _, hu⟩
      · rw [hu]
        refine ⟨Fprintf_Code _ _ rfl, ⟨C, rfl, by simp⟩, ?_⟩
        intro hN
        right
        simp only [Fprintf_Body, newResponse_Body, List.nil_append]
        rw [doPrintf_Sprintf _ _ _ (by decide) (by decide) hN]
      · rw [hu]
        refine ⟨Fprintf_Code _ _ rfl, ⟨C ++ O.drop C.length, rfl, by simp⟩, ?_⟩
        intro hN
        left
        simp only [Fprintf_Body, newResponse_Body, List.nil_append]
        rw [doPrintf_Sprintf _ _ _ (by decide) (by decide) hN]
  · intro hn
    rw [Upload_of_not_writable _ r fs _ C hr hn, Update_of_not_writable _ r fs _ C hr hn]
    exact ⟨⟨httpError_Code _ _ _ rfl, rfl⟩, ⟨httpError_Code _ _ _ rfl, rfl⟩⟩

/-- C11 on the request of `TestUpload`, file name `./test_images/1.jpg`, on the empty
directory: the file is written under `1.jpg`; and on a part with the file name `a/..`,
whose base name `..` is no entry name: 500 and nothing written. -/
theorem C11_blob_name_is_base_name_witness :
    (ParseMultipartForm (MaxBytesReader (multipartRequest [] 300 200
        [⟨"image", "./test_images/1.jpg", [1, 2, 3]⟩]) maxFileSize) maxFileSize
      = .ok (readForm [] [⟨"image", "./test_images/1.jpg", [1, 2, 3]⟩]) ∧
     List.find? (fun p => p.name == "image" && p.filename != "")
        [(⟨"image", "./test_images/1.jpg", [1, 2, 3]⟩ : Part)]
      = some { name := "image", filename := "./test_images/1.jpg", content := [1, 2, 3] }) ∧
    filepathBase "./test_images/1.jpg" = "1.jpg" ∧
    ((∅ : FS).present = true ∧ pathKind (filepathBase "./test_images/1.jpg") = .entry ∧
      ∀ e, (∅ : FS).lookup (filepathBase "./test_images/1.jpg") ≠ some (.dir e)) ∧
    imagePart (multipartRequest [] 300 200 [⟨"image", "./test_images/1.jpg", [1, 2, 3]⟩])
      = some { Filename := filepathBase "./test_images/1.jpg", content := [1, 2, 3] } ∧
    '/' ∉ (filepathBase "./test_images/1.jpg").toList ∧
    (Upload (newResponse []) (multipartRequest [] 300 200
      [⟨"image", "./test_images/1.jpg", [1, 2, 3]⟩]) ∅).1.Code = some 200 ∧
    (Upload (newResponse []) (multipartRequest [] 300 200
      [⟨"image", "./test_images/1.jpg", [1, 2, 3]⟩]) ∅).2
      = (∅ : FS).insert (filepathBase "./test_images/1.jpg") (.file [1, 2, 3]) ∧
    (Upload (newResponse []) (multipartRequest [] 300 200
      [⟨"image", "./test_images/1.jpg", [1, 2, 3]⟩]) ∅).1.Body =
      utf8 ("File - " ++ filepathBase "./test_images/1.jpg" ++
        "  was uploaded successfully") ∧
    (Update (newResponse []) (multipartRequest [] 300 200
      [⟨"image", "./test_images/1.jpg", [1, 2, 3]⟩]) ∅).1.Code = some 200 ∧
    (∃ data, (Update (newResponse []) (multipartRequest [] 300 200
        [⟨"image", "./test_images/1.jpg", [1, 2, 3]⟩]) ∅).2
        = (∅ : FS).insert (filepathBase "./test_images/1.jpg") (.file data) ∧
      data.take [1, 2, 3].length = [1, 2, 3]) ∧
    ((Update (newResponse []) (multipartRequest [] 300 200
        [⟨"image", "./test_images/1.jpg", [1, 2, 3]⟩]) ∅).1.Body =
        utf8 ("File - " ++ filepathBase "./test_images/1.jpg" ++
          "  was updated successfully") ∨
      (Update (newResponse []) (multipartRequest [] 300 200
        [⟨"image", "./test_images/1.jpg", [1, 2, 3]⟩]) ∅).1.Body =
        utf8 ("File - " ++ filepathBase "./test_images/1.jpg" ++
          " - didn't exist, so the file was uploaded successfully")) ∧
    (filepathBase "a/.." = ".." ∧ pathKind (filepathBase "a/..") = .directory) ∧
    ((Upload (newResponse []) (multipartRequest [] 300 200 [⟨"image", "a/..", [1, 2, 3]⟩])
        ∅).1.Code = some 500 ∧
      (Upload (newResponse []) (multipartRequest [] 300 200 [⟨"image", "a/..", [1, 2, 3]⟩])
        ∅).2 = ∅) ∧
    ((Update (newResponse []) (multipartRequest [] 300 200 [⟨"image", "a/..", [1, 2, 3]⟩])
        ∅).1.Code = some 500 ∧
      (Update (newResponse []) (multipartRequest [] 300 200 [⟨"image", "a/..", [1, 2, 3]⟩])
        ∅).2 = ∅) :=
  have t := C11_blob_name_is_base_name ∅ [] (multipartRequest [] 300 200
    [⟨"image", "./test_images/1.jpg", [1, 2, 3]⟩])
    [⟨"image", "./test_images/1.jpg", [1, 2, 3]⟩] "./test_images/1.jpg" [1, 2, 3]
    rfl (by decide)
  have s := t.2.2.1 ⟨rfl, by decide, by decide⟩
  have u := (C11_blob_name_is_base_name ∅ [] (multipartRequest [] 300 200
    [⟨"image", "a/..", [1, 2, 3]⟩])
    [⟨"image", "a/..", [1, 2, 3]⟩] "a/.." [1, 2, 3] rfl (by decide)).2.2.2 (by decide)
  ⟨⟨rfl, by decide⟩, by decide, ⟨rfl, by decide, by decide⟩, t.1, s.1,
    s.2.1.1, s.2.1.2.1, s.2.1.2.2.2 (by decide),
    s.2.2.1, s.2.2.2.1, s.2.2.2.2 (by decide),
    ⟨by decide, by decide⟩, u.1, u.2⟩

end CatServer
